import Mathlib

/-!
Verification development for the data-pipeline configuration generator
(`data_pipeline_register.py`).  The Python program keeps its whole document
in a few session-state dictionaries (`source_config`, `validator_config`,
`table_config`, `column_mappings`); the translation below embeds those
dictionaries as an ordered association-list value type `Value` (mirroring
Python `dict` insertion order), the session as a `Session` structure, and
each relevant function of the program as a Lean function over them.
-/

/-- A YAML-serialisable Python value as used by the program: strings,
booleans, lists and (insertion-ordered) dictionaries with string keys.
These are the only value shapes the program ever stores in its session
dictionaries. -/
inductive Value where
  | str : String → Value
  | bool : Bool → Value
  | list : List Value → Value
  | map : List (String × Value) → Value

mutual

/-- Decidable equality for `Value` (hand-written: the nested inductive has
no derive handler in this Lean version). -/
def Value.decEq : (a b : Value) → Decidable (a = b)
  | .str a, .str b =>
    if h : a = b then .isTrue (by rw [h]) else .isFalse (by simp [h])
  | .bool a, .bool b =>
    if h : a = b then .isTrue (by rw [h]) else .isFalse (by simp [h])
  | .list a, .list b =>
    match Value.decEqList a b with
    | .isTrue h => .isTrue (by rw [h])
    | .isFalse h => .isFalse (by simp [h])
  | .map a, .map b =>
    match Value.decEqFields a b with
    | .isTrue h => .isTrue (by rw [h])
    | .isFalse h => .isFalse (by simp [h])
  | .str _, .bool _ => .isFalse (fun h => Value.noConfusion h)
  | .str _, .list _ => .isFalse (fun h => Value.noConfusion h)
  | .str _, .map _ => .isFalse (fun h => Value.noConfusion h)
  | .bool _, .str _ => .isFalse (fun h => Value.noConfusion h)
  | .bool _, .list _ => .isFalse (fun h => Value.noConfusion h)
  | .bool _, .map _ => .isFalse (fun h => Value.noConfusion h)
  | .list _, .str _ => .isFalse (fun h => Value.noConfusion h)
  | .list _, .bool _ => .isFalse (fun h => Value.noConfusion h)
  | .list _, .map _ => .isFalse (fun h => Value.noConfusion h)
  | .map _, .str _ => .isFalse (fun h => Value.noConfusion h)
  | .map _, .bool _ => .isFalse (fun h => Value.noConfusion h)
  | .map _, .list _ => .isFalse (fun h => Value.noConfusion h)

/-- Decidable equality for lists of values. -/
def Value.decEqList : (a b : List Value) → Decidable (a = b)
  | [], [] => .isTrue rfl
  | [], _ :: _ => .isFalse (fun h => List.noConfusion h)
  | _ :: _, [] => .isFalse (fun h => List.noConfusion h)
  | x :: xs, y :: ys =>
    match Value.decEq x y with
    | .isTrue h1 =>
      match Value.decEqList xs ys with
      | .isTrue h2 => .isTrue (by rw [h1, h2])
      | .isFalse h2 => .isFalse (by simp [h2])
    | .isFalse h1 => .isFalse (by simp [h1])

/-- Decidable equality for key/value field lists. -/
def Value.decEqFields : (a b : List (String × Value)) → Decidable (a = b)
  | [], [] => .isTrue rfl
  | [], _ :: _ => .isFalse (fun h => List.noConfusion h)
  | _ :: _, [] => .isFalse (fun h => List.noConfusion h)
  | (k, v) :: xs, (k', v') :: ys =>
    if hk : k = k' then
      match Value.decEq v v' with
      | .isTrue h1 =>
        match Value.decEqFields xs ys with
        | .isTrue h2 => .isTrue (by rw [hk, h1, h2])
        | .isFalse h2 => .isFalse (by simp [h2])
      | .isFalse h1 => .isFalse (by simp [h1])
    else .isFalse (by simp [hk])

end

instance : DecidableEq Value := Value.decEq

/-- Ordered-dictionary lookup (first matching key), modelling `d[k]` /
`k in d` on a Python dict. -/
def alookup : List (String × Value) → String → Option Value
  | [], _ => none
  | (k', v) :: rest, k => if k = k' then some v else alookup rest k

/-- `d.get(k)` on a `Value` that is a dict; non-dicts have no keys. -/
def vlookup : Value → String → Option Value
  | .map kvs, k => alookup kvs k
  | _, _ => none

/-- `d.get(k, {})`: lookup with an empty-dict default, as used by
`render_generate_yaml` for the nested metadata access. -/
def vgetD (v : Value) (k : String) : Value :=
  (vlookup v k).getD (.map [])

/-- Python truthiness for the value shapes the program stores:
empty strings, empty lists, empty dicts and `False` are falsy. -/
def truthy : Value → Bool
  | .str s => ¬ s.isEmpty
  | .bool b => b
  | .list l => ¬ l.isEmpty
  | .map m => ¬ m.isEmpty

/-- Truthiness of a `d.get(k)` result: a missing key (`None`) is falsy. -/
def truthyO : Option Value → Bool
  | none => false
  | some v => truthy v

/-- `d.get(k, '')` coerced to the string case (every field read this way by
the program is string-valued). -/
def strGet (v : Value) (k : String) : String :=
  match vlookup v k with
  | some (.str s) => s
  | _ => ""

/-- `d[k] = v` on an ordered dict: replaces the value at an existing key in
place, otherwise appends the key at the end (Python dict semantics). -/
def aset : List (String × Value) → String → Value → List (String × Value)
  | [], k, v => [(k, v)]
  | (k', v') :: rest, k, v =>
    if k = k' then (k', v) :: rest else (k', v') :: aset rest k v

/-- `del d[k]` on an ordered dict (Python dicts never hold duplicate keys,
so erasing every entry with the key agrees with deleting the key). -/
def adel (kvs : List (String × Value)) (k : String) : List (String × Value) :=
  kvs.filter (fun kv => kv.1 ≠ k)

/-- `tier2_meta[k] = v` at the `Value` level. -/
def vset : Value → String → Value → Value
  | .map kvs, k, v => .map (aset kvs k v)
  | w, _, _ => w

/-- `del tier2_meta[k]` at the `Value` level. -/
def vdel : Value → String → Value
  | .map kvs, k => .map (adel kvs k)
  | w, _ => w

/-- The Streamlit session state of the program: the three configuration
dictionaries plus the `column_mappings` list (initialised at lines 49-76). -/
structure Session where
  source_config : Value
  validator_config : Value
  table_config : Value
  column_mappings : Value
deriving DecidableEq

/-- The session-state defaults installed at start-up (lines 49-76 of the
source). -/
def defaultSession : Session :=
  { source_config := .map []
    validator_config := .map
      [("tier1", .map [("control_file_flag", .str "y"),
                       ("data_quality_rules", .list [])]),
       ("tier2", .map [("data_quality_rules", .list [])])]
    table_config := .map
      [("metadata", .map
        [("tier1", .map [("technical_columns", .list []),
                         ("partition_columns", .list [])]),
         ("tier2", .map [("technical_columns", .list []),
                         ("partition_columns", .list []),
                         ("primary_keys", .list []),
                         ("historical_load_columns", .list [])])]),
       ("columns", .list [])]
    column_mappings := .list [] }

/-- `SUPPORTED_DATA_TYPES` (lines 16-19 of the source, transcribed with the
exact spellings used there). -/
def SUPPORTED_DATA_TYPES : List String :=
  ["string", "int", "bigint", "smallint", "decimal(18, 4)",
   "timestamp", "date", "boolean", "float", "double"]

/-- The required-field check of `render_generate_yaml` (lines 1028-1050):
the list of error messages collected for a document, in program order. -/
def validateSession (s : Session) : List String :=
  let e1 := if ¬ truthyO (vlookup s.source_config "source_system") then
              ["Source system is required"] else []
  let tier1_meta := vgetD (vgetD s.table_config "metadata") "tier1"
  let tier2_meta := vgetD (vgetD s.table_config "metadata") "tier2"
  let e2 := if ¬ truthyO (vlookup tier1_meta "table") then
              ["Tier 1 table name is required"] else []
  let e3 := if ¬ truthyO (vlookup tier2_meta "table") then
              ["Tier 2 table name is required"] else []
  let e4 := if ¬ truthyO (vlookup s.table_config "columns") then
              ["At least one column mapping is required"] else []
  e1 ++ e2 ++ e3 ++ e4

/-- The default output file name computed by `render_generate_yaml`
(lines 1073-1076): `f"{source_system}_{tier2_table}.yml"` when both are
truthy, else the fixed fallback. -/
def defaultFilename (s : Session) : String :=
  let source_system := strGet s.source_config "source_system"
  let tier2_table :=
    strGet (vgetD (vgetD s.table_config "metadata") "tier2") "table"
  if ¬ source_system.isEmpty ∧ ¬ tier2_table.isEmpty then
    source_system ++ "_" ++ tier2_table ++ ".yml"
  else "pipeline_config.yml"

/-- The invariant default triple installed for SCD2 historical load columns
(lines 787-791 of the source). -/
def historicalDefaultColumns : Value :=
  .list
    [.map [("name", .str "is_current"), ("data_type", .str "string")],
     .map [("name", .str "effective_start_date"), ("data_type", .str "date")],
     .map [("name", .str "effective_end_date"), ("data_type", .str "date")]]

/-- `update_load_type` (lines 784-794): run after `tier2_meta['load_type']`
has been reassigned.  Switching to SCD2 initialises the historical columns
when they are missing or falsy; switching away deletes them. -/
def update_load_type (tier2_meta : Value) : Value :=
  if vlookup tier2_meta "load_type" = some (.str "scd2") ∧
      ¬ truthyO (vlookup tier2_meta "historical_load_columns") then
    vset tier2_meta "historical_load_columns" historicalDefaultColumns
  else if vlookup tier2_meta "load_type" ≠ some (.str "scd2") ∧
      (vlookup tier2_meta "historical_load_columns").isSome then
    vdel tier2_meta "historical_load_columns"
  else tier2_meta

/-- The load-type selection logic of `render_table_config` (lines 799-809):
remember `previous_load_type = tier2_meta.get('load_type', '')`, assign the
newly selected value, and call `update_load_type` exactly when the value
changed. -/
def setLoadType (tier2_meta : Value) (newType : String) : Value :=
  let previous_load_type := strGet tier2_meta "load_type"
  let assigned := vset tier2_meta "load_type" (.str newType)
  if previous_load_type ≠ newType then update_load_type assigned else assigned

/-- One row of an uploaded column-mapping CSV, read through the
`tier_1` / `tier_2` / `data_type` columns. -/
structure CsvRow where
  tier_1 : String
  tier_2 : String
  data_type : String
deriving DecidableEq

/-- An uploaded CSV as pandas presents it to `render_column_mappings`:
the header names plus the parsed rows. -/
structure CsvUpload where
  headers : List String
  rows : List CsvRow
deriving DecidableEq

/-- Outcome of the bulk-upload branch of `render_column_mappings`
(lines 986-1011): either an error about missing header columns, or an
error listing the distinct unsupported data types, or the list of mappings
appended to `table_config['columns']`. -/
inductive BulkResult where
  | missingColumns : List String → BulkResult
  | unsupportedTypes : List String → BulkResult
  | added : List CsvRow → BulkResult
deriving DecidableEq

/-- First-occurrence deduplication with an accumulator of already-seen
entries. -/
def uniqueFirstAux (seen : List String) : List String → List String
  | [] => []
  | x :: rest =>
    if x ∈ seen then uniqueFirstAux seen rest
    else x :: uniqueFirstAux (x :: seen) rest

/-- First-occurrence deduplication, modelling
`invalid_types['data_type'].unique()`. -/
def uniqueFirst (l : List String) : List String := uniqueFirstAux [] l

/-- The bulk-upload validation of `render_column_mappings` (lines 986-1011):
check required header columns, then reject the whole upload when any row
has an unsupported `data_type` (reporting each distinct bad type once),
otherwise accept every row. -/
def bulkUploadColumns (df : CsvUpload) : BulkResult :=
  let required_cols := ["tier_1", "tier_2", "data_type"]
  let missing_cols := required_cols.filter (fun c => c ∉ df.headers)
  if ¬ missing_cols.isEmpty then .missingColumns missing_cols
  else
    let invalid_types :=
      df.rows.filter (fun r => r.data_type ∉ SUPPORTED_DATA_TYPES)
    if ¬ invalid_types.isEmpty then
      .unsupportedTypes (uniqueFirst (invalid_types.map (·.data_type)))
    else .added df.rows

/-- A `{'tier_1': …, 'tier_2': …, 'data_type': …}` column-mapping literal. -/
def colMap (t1 t2 dt : String) : Value :=
  .map [("tier_1", .str t1), ("tier_2", .str t2), ("data_type", .str dt)]

/-- A `{'name': …, 'data_type': …}` technical-column literal. -/
def techCol (n dt : String) : Value :=
  .map [("name", .str n), ("data_type", .str dt)]

/-- A `{'rule': …, 'column': […]}` data-quality-rule literal. -/
def dqRule (r : String) (cols : List String) : Value :=
  .map [("rule", .str r), ("column", .list (cols.map .str))]

/-- `source_config` literal of `load_sales_transaction_template`
(lines 145-168). -/
def salesSourceConfig : Value :=
  .map
    [("source_system", .str "pos"),
     ("catalog", .str "${catalog}"),
     ("delay_day", .str "1"),
     ("active_flag", .str "y"),
     ("landing_bucket", .str "${tier0_bucket}"),
     ("persisted_bucket", .str "${tier1_bucket}"),
     ("data_timezone", .str "UTC"),
     ("control_file_landing_location", .str "/ctl/pos/df_sohdr/${data_date}/"),
     ("data_file_landing_location", .str "/data/pos/df_sohdr/${data_date}/"),
     ("control_file_regex", .str "df_sohdr*.ctl"),
     ("data_file_regex", .str "df_sohdr*.csv"),
     ("control_file_format", .map
       [("header", .bool false), ("delimiter", .str "|")]),
     ("data_file_format", .map
       [("header", .bool true), ("delimiter", .str "|"),
        ("quote", .str "\""), ("escape", .str "\""),
        ("charset", .str "utf-8")])]

/-- `validator_config` literal of `load_sales_transaction_template`
(lines 170-184). -/
def salesValidatorConfig : Value :=
  .map
    [("tier1", .map
      [("control_file_flag", .str "y"),
       ("data_quality_rules", .list
         [dqRule "check_duplicate" ["branch_no", "shopping_card", "order_no"],
          dqRule "check_null" ["branch_no", "shopping_card", "order_no"]])]),
     ("tier2", .map
      [("data_quality_rules", .list
         [dqRule "check_duplicate" ["branch_code", "shopping_card_id", "order_id"],
          dqRule "check_null" ["branch_code", "shopping_card_id", "order_id"]])])]

/-- The 35 column mappings of the sales-transaction template
(lines 212-248). -/
def salesColumns : List Value :=
  [colMap "branch_no" "branch_code" "string",
   colMap "shopping_card" "shopping_card_id" "string",
   colMap "order_no" "order_id" "string",
   colMap "order_date" "order_timestamp" "timestamp",
   colMap "tour_code" "tour_code" "string",
   colMap "cust_type_code" "customer_type_code" "string",
   colMap "airline_code" "airline_code" "string",
   colMap "flight_code" "flight_code" "string",
   colMap "flight_date" "flight_date" "date",
   colMap "flight_time" "flight_time" "string",
   colMap "country_code" "country_code" "string",
   colMap "order_status" "order_status_type" "string",
   colMap "posid" "pos_id" "string",
   colMap "cashier_mac" "cashier_machine_id" "string",
   colMap "cashier_code" "cashier_code" "string",
   colMap "update_date_sale" "sale_update_timestamp" "timestamp",
   colMap "add_datetime" "add_timestamp" "timestamp",
   colMap "update_datetime" "update_timestamp" "timestamp",
   colMap "user_add" "user_add_id" "string",
   colMap "user_update" "user_update_id" "string",
   colMap "time_stamp" "timestamp_code" "string",
   colMap "lock_address" "lock_address_code" "string",
   colMap "cancel_to_order" "cancel_to_order_id" "int",
   colMap "hotel_code" "hotel_code" "string",
   colMap "hotel_source" "hotel_source_code" "string",
   colMap "shop_ref" "reference_shopping_card_id" "string",
   colMap "machine_tax" "machine_tax_id" "string",
   colMap "ref_doc" "reference_document_id" "string",
   colMap "cardtypecode" "card_type_code" "string",
   colMap "embossid" "emboss_id" "string",
   colMap "cardtypeid" "card_type_id" "string",
   colMap "lvheaderkey" "lvheader_key" "decimal(13, 2)",
   colMap "alipaysession" "alipay_session_number" "string",
   colMap "paid_guid" "paid_guid" "string",
   colMap "site" "site_name" "string"]

/-- `table_config` literal of `load_sales_transaction_template`
(lines 186-249). -/
def salesTableConfig : Value :=
  .map
    [("metadata", .map
      [("tier1", .map
        [("load_type", .str "full_dump"),
         ("schema", .str "t1_pos"),
         ("table", .str "df_sohdr"),
         ("partition_columns", .list [.str "source", .str "dp_data_dt"]),
         ("technical_columns", .list
           [techCol "source" "string",
            techCol "dp_load_ts" "timestamp",
            techCol "dp_data_dt" "date"])]),
       ("tier2", .map
        [("load_type", .str "scd1"),
         ("schema", .str "t2_pos"),
         ("table", .str "txn_sales_order_header"),
         ("primary_keys", .list
           [.str "branch_code", .str "shopping_card_id", .str "order_id"]),
         ("partition_columns", .list [.str "source"]),
         ("technical_columns", .list
           [techCol "source" "string",
            techCol "dp_load_ts" "timestamp",
            techCol "dp_data_dt" "date"])])]),
     ("columns", .list salesColumns)]

/-- `load_sales_transaction_template` (lines 142-249): wholesale
replacement of the three session dictionaries. -/
def load_sales_transaction_template (s : Session) : Session :=
  { s with
    source_config := salesSourceConfig
    validator_config := salesValidatorConfig
    table_config := salesTableConfig }

/-- `source_config` literal of `load_pos_branch_template` (lines 254-277). -/
def posBranchSourceConfig : Value :=
  .map
    [("source_system", .str "pos"),
     ("catalog", .str "${catalog}"),
     ("delay_day", .str "1"),
     ("active_flag", .str "y"),
     ("landing_bucket", .str "${tier0_bucket}"),
     ("persisted_bucket", .str "${tier1_bucket}"),
     ("data_timezone", .str "UTC"),
     ("control_file_landing_location", .str "/ctl/pos/df_branch/${data_date}/"),
     ("data_file_landing_location", .str "/data/pos/df_branch/${data_date}/"),
     ("control_file_regex", .str "df_branch*.ctl"),
     ("data_file_regex", .str "df_branch*.csv"),
     ("control_file_format", .map
       [("header", .bool false), ("delimiter", .str "|")]),
     ("data_file_format", .map
       [("header", .bool true), ("delimiter", .str "|"),
        ("quote", .str "\""), ("escape", .str "\""),
        ("charset", .str "utf-8")])]

/-- First `validator_config` literal of `load_pos_branch_template`
(lines 279-293): the POS-branch rules. -/
def posBranchValidatorConfig : Value :=
  .map
    [("tier1", .map
      [("control_file_flag", .str "y"),
       ("data_quality_rules", .list
         [dqRule "check_duplicate" ["branch_no", "plant", "site"],
          dqRule "check_null" ["branch_no", "plant", "site"]])]),
     ("tier2", .map
      [("data_quality_rules", .list
         [dqRule "check_duplicate" ["branch_code", "plant_code", "site_name"],
          dqRule "check_null" ["branch_code", "plant_code", "site_name"]])])]

/-- First `table_config` literal of `load_pos_branch_template`
(lines 295-333): the POS-branch tables (`mst_branch`, SCD2 with
historical load columns). -/
def posBranchTableConfig : Value :=
  .map
    [("metadata", .map
      [("tier1", .map
        [("load_type", .str "full_dump"),
         ("schema", .str "t1_pos"),
         ("table", .str "df_branch"),
         ("partition_columns", .list [.str "source", .str "dp_data_dt"]),
         ("technical_columns", .list
           [techCol "source" "string",
            techCol "dp_load_ts" "timestamp",
            techCol "dp_data_dt" "date"])]),
       ("tier2", .map
        [("load_type", .str "scd2"),
         ("schema", .str "t2_pos"),
         ("table", .str "mst_branch"),
         ("primary_keys", .list
           [.str "branch_code", .str "plant_code", .str "site_name"]),
         ("partition_columns", .list [.str "is_current", .str "source"]),
         ("technical_columns", .list
           [techCol "source" "string",
            techCol "dp_load_ts" "timestamp",
            techCol "dp_data_dt" "date"]),
         ("historical_load_columns", .list
           [techCol "is_current" "string",
            techCol "effective_start_date" "date",
            techCol "effective_end_date" "date"])])]),
     ("columns", .list
       [colMap "branch_no" "branch_code" "string",
        colMap "name" "branch_name" "string",
        colMap "plant" "plant_code" "string",
        colMap "site" "site_name" "string",
        colMap "address1" "address_1_name" "string"])]

/-- Second `validator_config` literal of `load_pos_branch_template`
(lines 335-349), assigned immediately after the first one; it is
byte-for-byte the sales-transaction validator literal. -/
def posBranchValidatorConfigOverwrite : Value :=
  .map
    [("tier1", .map
      [("control_file_flag", .str "y"),
       ("data_quality_rules", .list
         [dqRule "check_duplicate" ["branch_no", "shopping_card", "order_no"],
          dqRule "check_null" ["branch_no", "shopping_card", "order_no"]])]),
     ("tier2", .map
      [("data_quality_rules", .list
         [dqRule "check_duplicate" ["branch_code", "shopping_card_id", "order_id"],
          dqRule "check_null" ["branch_code", "shopping_card_id", "order_id"]])])]

/-- Second `table_config` literal of `load_pos_branch_template`
(lines 351-414), assigned immediately after the first one; it is
byte-for-byte the sales-transaction table literal (35 columns,
`txn_sales_order_header`, SCD1). -/
def posBranchTableConfigOverwrite : Value :=
  .map
    [("metadata", .map
      [("tier1", .map
        [("load_type", .str "full_dump"),
         ("schema", .str "t1_pos"),
         ("table", .str "df_sohdr"),
         ("partition_columns", .list [.str "source", .str "dp_data_dt"]),
         ("technical_columns", .list
           [techCol "source" "string",
            techCol "dp_load_ts" "timestamp",
            techCol "dp_data_dt" "date"])]),
       ("tier2", .map
        [("load_type", .str "scd1"),
         ("schema", .str "t2_pos"),
         ("table", .str "txn_sales_order_header"),
         ("primary_keys", .list
           [.str "branch_code", .str "shopping_card_id", .str "order_id"]),
         ("partition_columns", .list [.str "source"]),
         ("technical_columns", .list
           [techCol "source" "string",
            techCol "dp_load_ts" "timestamp",
            techCol "dp_data_dt" "date"])])]),
     ("columns", .list
       [colMap "branch_no" "branch_code" "string",
        colMap "shopping_card" "shopping_card_id" "string",
        colMap "order_no" "order_id" "string",
        colMap "order_date" "order_timestamp" "timestamp",
        colMap "tour_code" "tour_code" "string",
        colMap "cust_type_code" "customer_type_code" "string",
        colMap "airline_code" "airline_code" "string",
        colMap "flight_code" "flight_code" "string",
        colMap "flight_date" "flight_date" "date",
        colMap "flight_time" "flight_time" "string",
        colMap "country_code" "country_code" "string",
        colMap "order_status" "order_status_type" "string",
        colMap "posid" "pos_id" "string",
        colMap "cashier_mac" "cashier_machine_id" "string",
        colMap "cashier_code" "cashier_code" "string",
        colMap "update_date_sale" "sale_update_timestamp" "timestamp",
        colMap "add_datetime" "add_timestamp" "timestamp",
        colMap "update_datetime" "update_timestamp" "timestamp",
        colMap "user_add" "user_add_id" "string",
        colMap "user_update" "user_update_id" "string",
        colMap "time_stamp" "timestamp_code" "string",
        colMap "lock_address" "lock_address_code" "string",
        colMap "cancel_to_order" "cancel_to_order_id" "int",
        colMap "hotel_code" "hotel_code" "string",
        colMap "hotel_source" "hotel_source_code" "string",
        colMap "shop_ref" "reference_shopping_card_id" "string",
        colMap "machine_tax" "machine_tax_id" "string",
        colMap "ref_doc" "reference_document_id" "string",
        colMap "cardtypecode" "card_type_code" "string",
        colMap "embossid" "emboss_id" "string",
        colMap "cardtypeid" "card_type_id" "string",
        colMap "lvheaderkey" "lvheader_key" "decimal(13, 2)",
        colMap "alipaysession" "alipay_session_number" "string",
        colMap "paid_guid" "paid_guid" "string",
        colMap "site" "site_name" "string"])]

/-- `load_pos_branch_template` (lines 252-414): the sequence of session
assignments exactly as the source performs them — POS-branch values first,
then the second (sales-transaction) literals overwrite `validator_config`
and `table_config`. -/
def load_pos_branch_template (s : Session) : Session :=
  let s1 := { s with source_config := posBranchSourceConfig }
  let s2 := { s1 with validator_config := posBranchValidatorConfig }
  let s3 := { s2 with table_config := posBranchTableConfig }
  let s4 := { s3 with validator_config := posBranchValidatorConfigOverwrite }
  { s4 with table_config := posBranchTableConfigOverwrite }

/-- Feedback produced by the template loader in `render_sidebar`. -/
inductive SidebarMsg where
  | success : String → SidebarMsg
  | info : String → SidebarMsg
  | noMsg : SidebarMsg
deriving DecidableEq

/-- The `Load Template` dispatch of `render_sidebar` (lines 105-115):
the two implemented templates load and report success; any other selected
name except `"None"` leaves the session unchanged and shows an
informational `"… not implemented yet"` message; `"None"` does nothing. -/
def sidebarLoadTemplate (template_option : String) (s : Session) :
    Session × SidebarMsg :=
  if template_option = "POS Branch Template" then
    (load_pos_branch_template s, .success "POS Branch template loaded!")
  else if template_option = "Sales Transaction Template" then
    (load_sales_transaction_template s, .success "Sales Transaction template loaded!")
  else if template_option ≠ "None" then
    (s, .info (template_option ++ " not implemented yet"))
  else (s, .noMsg)

/-!
## The serialized text format

The program serialises with `yaml.dump(config, default_flow_style=False,
sort_keys=False)` and re-reads with `yaml.safe_load`.  The functions below
model that external text layer for the value shapes the program produces:
block-style mappings indented by two, block sequences emitted at the same
indentation as their key (PyYAML's default), `{}` / `[]` for empty
collections, and single-quoting of scalars that are not plain-safe.  The
parser reads that text back; text is a `List Char`, a line-oriented view of
the emitted string.
-/

/-- Characters that PyYAML will not start a plain scalar with. -/
def leadBanned : List Char :=
  ['-', '?', ':', ',', '[', ']', '{', '}', '#', '&', '*', '!', '|', '>',
   '\'', '"', '%', '@', '`', ' ', '\t']

/-- Words that resolve to non-string YAML scalars and therefore get quoted
when dumped as strings. -/
def reservedScalars : List String :=
  ["true", "True", "TRUE", "false", "False", "FALSE",
   "null", "Null", "NULL", "~",
   "yes", "Yes", "YES", "no", "No", "NO",
   "on", "On", "ON", "off", "Off", "OFF"]

/-- A string that the dumper may emit unquoted: nonempty, harmless first
character, no character that is structural for the block format, not a
reserved word and not numeric-looking. -/
def plainSafe (s : String) : Bool :=
  match s.data with
  | [] => false
  | c :: _ =>
    decide (c ∉ leadBanned) && decide (':' ∉ s.data) &&
    decide ('#' ∉ s.data) && decide ('\'' ∉ s.data) &&
    decide ('\n' ∉ s.data) && decide (s ∉ reservedScalars) &&
    !(s.data.all (·.isDigit)) && decide (s.data.getLast? ≠ some ' ')

/-- Strings the single-quoting emitter handles: no quote characters and no
newlines (every string the program serialises satisfies this). -/
def wfStr (s : String) : Bool :=
  decide ('\'' ∉ s.data) && decide ('\n' ∉ s.data)

/-- Mapping keys as the program uses them: nonempty identifiers with no
structural characters. -/
def wfKey (s : String) : Bool :=
  match s.data with
  | [] => false
  | c :: _ =>
    decide (c ∉ leadBanned) && decide (':' ∉ s.data) &&
    decide ('\n' ∉ s.data) && decide ('\'' ∉ s.data) &&
    decide (s.data.getLast? ≠ some ' ')

mutual

/-- Value shapes the dump/load model covers when used as a mapping value. -/
def wfMapVal : Value → Bool
  | .str s => wfStr s
  | .bool _ => true
  | .list es => wfItems es
  | .map kvs => wfFields kvs

/-- Well-formed field lists of a block mapping. -/
def wfFields : List (String × Value) → Bool
  | [] => true
  | (k, v) :: rest => wfKey k && wfMapVal v && wfFields rest

/-- Well-formed elements of a block sequence: scalars, or mappings whose
first value is a scalar (as in every list of dictionaries the program
emits). -/
def wfItems : List Value → Bool
  | [] => true
  | .str s :: rest => wfStr s && wfItems rest
  | .bool _ :: rest => wfItems rest
  | .map ((k0, .str s0) :: kvs) :: rest =>
    wfKey k0 && wfStr s0 && wfFields kvs && wfItems rest
  | .map ((k0, .bool _) :: kvs) :: rest =>
    wfKey k0 && wfFields kvs && wfItems rest
  | _ => false

end

/-- Indentation prefix. -/
def spacesN (i : Nat) : List Char := List.replicate i ' '

/-- The rendered form of a scalar: booleans as `true` / `false`, strings
plain when safe and single-quoted otherwise. -/
def scalarChars : Value → List Char
  | .bool true => "true".data
  | .bool false => "false".data
  | .str s => if plainSafe s then s.data else '\'' :: (s.data ++ ['\''])
  | _ => []

mutual

/-- Emit one `key: value` entry of a block mapping at indentation `i`. -/
def emitKV (i : Nat) (k : String) (v : Value) : List (List Char) :=
  match v with
  | .map [] => [spacesN i ++ (k.data ++ (':' :: ' ' :: ['{', '}']))]
  | .list [] => [spacesN i ++ (k.data ++ (':' :: ' ' :: ['[', ']']))]
  | .map kvs => (spacesN i ++ (k.data ++ [':'])) :: emitFields (i + 2) kvs
  | .list es => (spacesN i ++ (k.data ++ [':'])) :: emitItems i es
  | w => [spacesN i ++ (k.data ++ (':' :: ' ' :: scalarChars w))]

/-- Emit a block mapping, keys in insertion order (`sort_keys=False`). -/
def emitFields (i : Nat) (kvs : List (String × Value)) : List (List Char) :=
  match kvs with
  | [] => []
  | (k, v) :: rest => emitKV i k v ++ emitFields i rest

/-- Emit a block sequence at indentation `i`; mappings use the compact
`- key: value` form with the remaining fields indented by two more. -/
def emitItems (i : Nat) (es : List Value) : List (List Char) :=
  match es with
  | [] => []
  | .map ((k0, v0) :: kvs) :: rest =>
    (spacesN i ++ ('-' :: ' ' :: (k0.data ++ (':' :: ' ' :: scalarChars v0))))
      :: (emitFields (i + 2) kvs ++ emitItems i rest)
  | e :: rest => (spacesN i ++ ('-' :: ' ' :: scalarChars e)) :: emitItems i rest

end

/-- Number of leading spaces of a line. -/
def indentOf : List Char → Nat
  | [] => 0
  | c :: r => if c = ' ' then indentOf r + 1 else 0

/-- Does the line content start a sequence entry (`- `)? -/
def isDash : List Char → Bool
  | c1 :: c2 :: _ => c1 = '-' && c2 = ' '
  | _ => false

/-- Does the token start a single-quoted scalar? -/
def isQuote : List Char → Bool
  | c :: _ => c = '\''
  | [] => false

/-- Split at the first `": "` occurrence (the key/value separator). -/
def splitColonSpace : List Char → Option (List Char × List Char)
  | [] => none
  | [_] => none
  | c1 :: c2 :: rest =>
    if c1 = ':' ∧ c2 = ' ' then some ([], rest)
    else
      match splitColonSpace (c2 :: rest) with
      | some (a, b) => some (c1 :: a, b)
      | none => none

/-- Strip a single-quoted token. -/
def unquoteTok : List Char → Option Value
  | '\'' :: rest =>
    if rest.getLast? = some '\'' then some (.str ⟨rest.dropLast⟩) else none
  | _ => none

/-- Read an inline scalar token back into a value. -/
def parseInline (t : List Char) : Option Value :=
  if t = [] then none
  else if isQuote t then unquoteTok t
  else if t = ['{', '}'] then some (.map [])
  else if t = ['[', ']'] then some (.list [])
  else if t = "true".data then some (.bool true)
  else if t = "false".data then some (.bool false)
  else some (.str ⟨t⟩)

mutual

/-- Parse the entries of a block mapping expected at indentation `i`,
returning them in textual order together with the unconsumed lines.
`fuel` only bounds recursion depth; `parseTop` supplies enough for any
input. -/
def parseFields :
    Nat → Nat → List (List Char) →
    Option (List (String × Value) × List (List Char))
  | 0, _, _ => none
  | _ + 1, _, [] => some ([], [])
  | fuel + 1, i, l :: rest =>
    let n := indentOf l
    if n < i then some ([], l :: rest)
    else if n = i then
      let c := l.drop i
      match splitColonSpace c with
      | some (kd, tok) =>
        match parseInline tok with
        | none => none
        | some v =>
          match parseFields fuel i rest with
          | some (kvs, r) => some ((⟨kd⟩, v) :: kvs, r)
          | none => none
      | none =>
        match c.getLast? with
        | some ':' =>
          let kd := c.dropLast
          match rest with
          | [] => none
          | l2 :: _ =>
            if indentOf l2 = i ∧ isDash (l2.drop i) then
              match parseItems fuel i rest with
              | some (es, r1) =>
                match parseFields fuel i r1 with
                | some (kvs, r2) => some ((⟨kd⟩, .list es) :: kvs, r2)
                | none => none
              | none => none
            else if indentOf l2 = i + 2 then
              match parseFields fuel (i + 2) rest with
              | some (kvs1, r1) =>
                match parseFields fuel i r1 with
                | some (kvs, r2) => some ((⟨kd⟩, .map kvs1) :: kvs, r2)
                | none => none
              | none => none
            else none
        | _ => none
    else none

/-- Parse the entries of a block sequence expected at indentation `i`. -/
def parseItems :
    Nat → Nat → List (List Char) →
    Option (List Value × List (List Char))
  | 0, _, _ => none
  | _ + 1, _, [] => some ([], [])
  | fuel + 1, i, l :: rest =>
    if indentOf l ≠ i then some ([], l :: rest)
    else
      let c := l.drop i
      if ¬ isDash c then some ([], l :: rest)
      else
        let t := c.drop 2
        if isQuote t then
          match parseInline t with
          | some v =>
            match parseItems fuel i rest with
            | some (es, r) => some (v :: es, r)
            | none => none
          | none => none
        else
          match splitColonSpace t with
          | some (kd, tok) =>
            match parseInline tok with
            | some v0 =>
              match parseFields fuel (i + 2) rest with
              | some (kvs, r1) =>
                match parseItems fuel i r1 with
                | some (es, r2) => some (.map ((⟨kd⟩, v0) :: kvs) :: es, r2)
                | none => none
              | none => none
            | none => none
          | none =>
            match parseInline t with
            | some v =>
              match parseItems fuel i rest with
              | some (es, r) => some (v :: es, r)
              | none => none
            | none => none

end

/-- Join emitted lines with newlines into the output text. -/
def joinLines : List (List Char) → List Char
  | [] => []
  | [l] => l
  | l :: ls => l ++ '\n' :: joinLines ls

/-- Split a text into its lines. -/
def splitLines : List Char → List (List Char)
  | [] => [[]]
  | c :: rest =>
    if c = '\n' then [] :: splitLines rest
    else
      match splitLines rest with
      | [] => [[c]]
      | l :: ls => (c :: l) :: ls

/-- Scalar values (the only shapes rendered inline by the emitter). -/
def wfScalar : Value → Bool
  | .str s => wfStr s
  | .bool _ => true
  | _ => false

/-- Lines that make the block-mapping parser at indentation `i` stop
without consuming anything: no line at all, or a line that dedents. -/
def StopsFields (i : Nat) : List (List Char) → Prop
  | [] => True
  | l :: _ => indentOf l < i

/-- Lines that make the block-sequence parser at indentation `i` stop
without consuming anything: no line, a dedented line, or a line at the
same indentation that is not a `- ` entry. -/
def StopsItems (i : Nat) : List (List Char) → Prop
  | [] => True
  | l :: _ => indentOf l < i ∨ (indentOf l = i ∧ isDash (l.drop i) = false)

/-- The `combined_config` dictionary built by `render_generate_yaml`
(lines 1059-1063), in declaration order. -/
def combinedConfig (s : Session) : List (String × Value) :=
  [("source_config", s.source_config),
   ("validator_config", s.validator_config),
   ("table_config", s.table_config)]

/-- `yaml.dump(combined_config, default_flow_style=False, sort_keys=False)`
(line 1066 and `create_yaml_file`, line 35): serialize the whole document. -/
def serializeSession (s : Session) : List Char :=
  joinLines (emitFields 0 (combinedConfig s))

/-- `yaml.safe_load` on a serialized document: parse the top-level block
mapping, requiring the whole text to be consumed. -/
def parseTop (cs : List Char) : Option (List (String × Value)) :=
  let lines := splitLines cs
  match parseFields (lines.length + 1) 0 lines with
  | some (kvs, []) => some kvs
  | _ => none

/-- `load_config_into_session` (lines 416-429): copy each present section
into the session; when `table_config` carries a `columns` key, also refresh
`column_mappings` from it. -/
def load_config_into_session (config : List (String × Value)) (s : Session) :
    Session :=
  let s1 := match alookup config "source_config" with
            | some v => { s with source_config := v }
            | none => s
  let s2 := match alookup config "validator_config" with
            | some v => { s1 with validator_config := v }
            | none => s1
  match alookup config "table_config" with
  | some tc =>
    let s3 := { s2 with table_config := tc }
    match vlookup tc "columns" with
    | some cols => { s3 with column_mappings := cols }
    | none => s3
  | none => s2

/-- Loading a serialized document: parse the text and merge it into the
session (`load_existing_config` + `load_config_into_session`). -/
def loadDocumentInto (cs : List Char) (s : Session) : Option Session :=
  (parseTop cs).map (fun config => load_config_into_session config s)

/-- The observable outcome of one pass through `render_generate_yaml`
(lines 1017-1103): the collected error messages, the YAML text generated
for the preview (always produced, line 1066), the session afterwards
(never mutated by this function), and — when the user clicks `Save to
File` — the path and content written by `create_yaml_file`. -/
structure GenerateYamlResult where
  error_messages : List String
  yaml_config : Option (List Char)
  session_after : Session
  saved_file : Option (String × List Char)
deriving DecidableEq

/-- `render_generate_yaml`: note that neither the preview nor the save
branch consults `has_required_fields`. -/
def renderGenerateYaml (s : Session) (output_dir filename : String)
    (save_clicked : Bool) : GenerateYamlResult :=
  { error_messages := validateSession s
    yaml_config := some (serializeSession s)
    session_after := s
    saved_file :=
      if save_clicked then
        some (output_dir ++ "/" ++ filename, serializeSession s)
      else none }

/-- A document whose three export invariants (tier-1 table, tier-2 table,
columns) are all satisfied while `source_system` is missing. -/
def docNoSourceSystem : Session :=
  { source_config := .map []
    validator_config := .map []
    table_config := .map
      [("metadata", .map
        [("tier1", .map [("table", .str "t1_table")]),
         ("tier2", .map [("table", .str "t2_table")])]),
       ("columns", .list [colMap "a" "b" "string"])]
    column_mappings := .list [] }

/-- A document with `source_system` set but both table names and the
column list empty. -/
def docOnlySourceSystem : Session :=
  { source_config := .map [("source_system", .str "pos")]
    validator_config := .map []
    table_config := .map []
    column_mappings := .list [] }

/-- The bulk-upload CSV of the claim: header `tier_1,tier_2,data_type`
with rows `[a,b,string]` and `[c,d,notatype]`. -/
def csvMixedRows : CsvUpload :=
  { headers := ["tier_1", "tier_2", "data_type"]
    rows := [⟨"a", "b", "string"⟩, ⟨"c", "d", "notatype"⟩] }

/-!
## Helper lemmas
-/

theorem alookup_aset_self (kvs : List (String × Value)) (k : String) (v : Value) :
    alookup (aset kvs k v) k = some v := by
  induction kvs with
  | nil => simp [aset, alookup]
  | cons kv rest ih =>
    obtain ⟨k', v'⟩ := kv
    by_cases h : k = k' <;> simp [aset, alookup, h, ih]

theorem alookup_aset_ne (kvs : List (String × Value)) (k k' : String) (v : Value)
    (h : k' ≠ k) : alookup (aset kvs k v) k' = alookup kvs k' := by
  induction kvs with
  | nil => simp [aset, alookup, h]
  | cons kv rest ih =>
    obtain ⟨k₀, v₀⟩ := kv
    by_cases h0 : k = k₀
    · subst h0; simp [aset, alookup, h]
    · by_cases h1 : k' = k₀ <;> simp [aset, alookup, h0, h1, ih]

theorem alookup_adel_self (kvs : List (String × Value)) (k : String) :
    alookup (adel kvs k) k = none := by
  induction kvs with
  | nil => rfl
  | cons kv rest ih =>
    obtain ⟨k₀, v₀⟩ := kv
    simp only [adel] at ih ⊢
    rw [List.filter_cons]
    simp only [decide_not] at ih
    by_cases h : k₀ = k
    · simpa [h] using ih
    · have h' : ¬ k = k₀ := fun hh => h hh.symm
      simpa [h, h', alookup] using ih

theorem mem_uniqueFirstAux (l : List String) (a : String) :
    ∀ seen, a ∈ uniqueFirstAux seen l ↔ a ∈ l ∧ a ∉ seen := by
  induction l with
  | nil => simp [uniqueFirstAux]
  | cons x rest ih =>
    intro seen
    by_cases hx : x ∈ seen
    · by_cases ha : a = x
      · subst ha; simp [uniqueFirstAux, hx, ih]
      · simp [uniqueFirstAux, hx, ih, ha]
    · by_cases ha : a = x
      · subst ha; simp [uniqueFirstAux, hx, ih]
      · simp only [uniqueFirstAux, hx, if_neg, List.mem_cons, ih,
          List.mem_cons, ite_false]
        constructor
        · rintro (h | ⟨h1, h2⟩)
          · exact absurd h ha
          · exact ⟨Or.inr h1, fun hh => h2 (Or.inr hh)⟩
        · rintro ⟨h1 | h1, h2⟩
          · exact absurd h1 ha
          · exact Or.inr ⟨h1, fun hh => by
              rcases hh with hh | hh
              · exact ha hh
              · exact h2 hh⟩

theorem mem_uniqueFirst (l : List String) (a : String) :
    a ∈ uniqueFirst l ↔ a ∈ l := by
  simp [uniqueFirst, mem_uniqueFirstAux]

theorem truthyO_isSome (o : Option Value) (h : truthyO o = true) :
    o.isSome = true := by
  cases o with
  | none => simp [truthyO] at h
  | some v => simp

/-!
## C8 — the supported data-type set
-/

/-- C8 counterexample: the claim fixes the exact spelling `decimal(18,4)`,
but the source's `SUPPORTED_DATA_TYPES` spells this entry
`decimal(18, 4)` (with a space), so the claimed spelling is not in the
set. -/
theorem supported_types_spelling_counterexample :
    "decimal(18,4)" ∉ SUPPORTED_DATA_TYPES ∧
    "decimal(18, 4)" ∈ SUPPORTED_DATA_TYPES := by decide

/-- C8 (amended): the supported data-type set is exactly the fixed, closed
list of ten distinct types `string, int, bigint, smallint,
decimal(18, 4), timestamp, date, boolean, float, double` — no more and no
fewer — where the decimal entry is spelled with a space after the comma. -/
theorem supported_types_exact :
    SUPPORTED_DATA_TYPES =
      ["string", "int", "bigint", "smallint", "decimal(18, 4)",
       "timestamp", "date", "boolean", "float", "double"] ∧
    SUPPORTED_DATA_TYPES.length = 10 ∧ SUPPORTED_DATA_TYPES.Nodup := by
  refine ⟨rfl, rfl, by decide⟩

/-!
## C9 — the default output file name
-/

/-- C9: the default output filename is
`{source_system}_{tier2_table}.yml` whenever both `source_system` and the
tier-2 table name are non-empty, and the fixed fallback
`pipeline_config.yml` whenever at least one of the two is empty/absent. -/
theorem default_filename_spec (s : Session) :
    (¬ (strGet s.source_config "source_system").isEmpty →
     ¬ (strGet (vgetD (vgetD s.table_config "metadata") "tier2") "table").isEmpty →
      defaultFilename s =
        strGet s.source_config "source_system" ++ "_" ++
        strGet (vgetD (vgetD s.table_config "metadata") "tier2") "table" ++ ".yml") ∧
    ((strGet s.source_config "source_system").isEmpty ∨
     (strGet (vgetD (vgetD s.table_config "metadata") "tier2") "table").isEmpty →
      defaultFilename s = "pipeline_config.yml") := by
  constructor
  · intro h1 h2
    simp [defaultFilename, h1, h2]
  · intro h
    rcases h with h | h <;> simp [defaultFilename, h]

/-- C9 witness: on the sales-transaction template document both fields are
non-empty and the filename is `pos_txn_sales_order_header.yml`; on the
default (empty) document the fallback is used. -/
theorem default_filename_spec_witness :
    defaultFilename (load_sales_transaction_template defaultSession) =
      "pos_txn_sales_order_header.yml" ∧
    defaultFilename defaultSession = "pipeline_config.yml" := by
  constructor
  · have h := (default_filename_spec (load_sales_transaction_template defaultSession)).1
      (by decide) (by decide)
    simpa using h
  · have h := (default_filename_spec defaultSession).2 (by decide)
    simpa using h

/-!
## C7 — unknown template names
-/

/-- C7 counterexample: the program has no `UnknownTemplateError` result at
all.  Selecting the listed-but-unimplemented `Customer Master Template`
leaves the document unchanged and shows only an informational
"not implemented yet" message, and selecting `None` silently does
nothing — contradicting the claim that instantiation fails with a
distinguished error rather than silently doing nothing. -/
theorem unknown_template_counterexample :
    sidebarLoadTemplate "None" defaultSession = (defaultSession, .noMsg) ∧
    sidebarLoadTemplate "Customer Master Template" defaultSession =
      (defaultSession, .info "Customer Master Template not implemented yet") := by
  constructor <;> rfl

/-- C7 (amended): for every name outside the two implemented templates the
document is left unchanged; names other than `"None"` produce an
informational `"<name> not implemented yet"` message (not a distinguished
error result), and `"None"` produces no message at all. -/
theorem unknown_template_behavior (opt : String) (s : Session)
    (h1 : opt ≠ "POS Branch Template") (h2 : opt ≠ "Sales Transaction Template") :
    sidebarLoadTemplate opt s =
      (s, if opt = "None" then SidebarMsg.noMsg
          else .info (opt ++ " not implemented yet")) := by
  unfold sidebarLoadTemplate
  rw [if_neg h1, if_neg h2]
  by_cases h : opt = "None" <;> simp [h]

/-- C7 witness: instantiating the unimplemented `Customer Master Template`
on the default session. -/
theorem unknown_template_behavior_witness :
    sidebarLoadTemplate "Customer Master Template" defaultSession =
      (defaultSession, .info "Customer Master Template not implemented yet") := by
  have h := unknown_template_behavior "Customer Master Template" defaultSession
    (by decide) (by decide)
  simpa using h

/-!
## C10 — templates carry an unsupported data type
-/

/-- C10: both built-in templates produce the column mapping
`lvheaderkey → lvheader_key` with data type `decimal(13, 2)`, which lies
outside `SUPPORTED_DATA_TYPES`; a bulk import of that very mapping is
rejected by the closed-type-set check on the same field. -/
theorem templates_carry_unsupported_type :
    "decimal(13, 2)" ∉ SUPPORTED_DATA_TYPES ∧
    (∃ cols, vlookup (load_sales_transaction_template defaultSession).table_config
        "columns" = some (.list cols) ∧
      colMap "lvheaderkey" "lvheader_key" "decimal(13, 2)" ∈ cols) ∧
    (∃ cols, vlookup (load_pos_branch_template defaultSession).table_config
        "columns" = some (.list cols) ∧
      colMap "lvheaderkey" "lvheader_key" "decimal(13, 2)" ∈ cols) ∧
    bulkUploadColumns
      ⟨["tier_1", "tier_2", "data_type"],
       [⟨"lvheaderkey", "lvheader_key", "decimal(13, 2)"⟩]⟩ =
      .unsupportedTypes ["decimal(13, 2)"] := by
  refine ⟨by decide, ⟨salesColumns, by decide⟩, ?_, by decide⟩
  refine ⟨salesColumns, ?_, by decide⟩
  decide

/-!
## C6 — the POS-branch template is overwritten with sales data
-/

/-- C6 (code bug): immediately after assigning its own values,
`load_pos_branch_template` overwrites `validator_config` and
`table_config` with literals identical to the sales-transaction
template's; the resulting document has tier-2 table
`txn_sales_order_header` with `load_type` `scd1` and no
`historical_load_columns` — not the POS-branch values (`mst_branch`,
`scd2`) the claim (and the spec's intent) describes. -/
theorem pos_branch_template_overwritten :
    (load_pos_branch_template defaultSession).validator_config =
      posBranchValidatorConfigOverwrite ∧
    (load_pos_branch_template defaultSession).table_config =
      posBranchTableConfigOverwrite ∧
    posBranchValidatorConfigOverwrite =
      (load_sales_transaction_template defaultSession).validator_config ∧
    posBranchTableConfigOverwrite =
      (load_sales_transaction_template defaultSession).table_config ∧
    (load_pos_branch_template defaultSession).validator_config ≠
      posBranchValidatorConfig ∧
    (load_pos_branch_template defaultSession).table_config ≠
      posBranchTableConfig ∧
    vlookup (vgetD (vgetD (load_pos_branch_template defaultSession).table_config
        "metadata") "tier2") "table" = some (.str "txn_sales_order_header") ∧
    vlookup (vgetD (vgetD (load_pos_branch_template defaultSession).table_config
        "metadata") "tier2") "historical_load_columns" = none := by
  refine ⟨rfl, rfl, by decide, by decide, by decide, by decide, by decide, by decide⟩

/-!
## C4 — bulk column-mapping import
-/

/-- C4 counterexample: on the claim's CSV (`[a,b,string]`,
`[c,d,notatype]`) the import does not accept the valid row — it returns
only the unsupported-type error (naming `notatype` but not its row) and
adds no mappings at all, while the claim promises exactly one accepted
mapping alongside the error. -/
theorem bulk_import_counterexample :
    bulkUploadColumns csvMixedRows = .unsupportedTypes ["notatype"] := by decide

/-- C4 (amended): bulk import is all-or-nothing.  With the required header
present, a CSV whose rows all carry supported types is accepted in full;
as soon as any row carries an unsupported `data_type`, no row is accepted
and a single error is produced whose type list contains exactly the
distinct unsupported types of the upload (all reported in one pass, but
without row positions). -/
theorem bulk_import_all_or_nothing (df : CsvUpload)
    (h1 : "tier_1" ∈ df.headers) (h2 : "tier_2" ∈ df.headers)
    (h3 : "data_type" ∈ df.headers) :
    ((∀ r ∈ df.rows, r.data_type ∈ SUPPORTED_DATA_TYPES) →
      bulkUploadColumns df = .added df.rows) ∧
    ((∃ r ∈ df.rows, r.data_type ∉ SUPPORTED_DATA_TYPES) →
      ∃ ts, bulkUploadColumns df = .unsupportedTypes ts ∧
        ∀ t, t ∈ ts ↔ ∃ r ∈ df.rows,
          r.data_type = t ∧ t ∉ SUPPORTED_DATA_TYPES) := by
  have hmiss : (["tier_1", "tier_2", "data_type"].filter
      (fun c => c ∉ df.headers)) = [] := by
    simp [List.filter_cons, h1, h2, h3]
  constructor
  · intro hall
    have hinv : df.rows.filter
        (fun r => r.data_type ∉ SUPPORTED_DATA_TYPES) = [] := by
      simp only [List.filter_eq_nil_iff]
      intro r hr
      simp [hall r hr]
    simp only [bulkUploadColumns]
    rw [hmiss, hinv]
    simp
  · rintro ⟨r0, hr0, hbad⟩
    have hinv : ¬ (df.rows.filter
        (fun r => r.data_type ∉ SUPPORTED_DATA_TYPES)).isEmpty := by
      intro hemp
      rw [List.isEmpty_iff, List.filter_eq_nil_iff] at hemp
      have hcontra := hemp r0 hr0
      simp [hbad] at hcontra
    refine ⟨uniqueFirst ((df.rows.filter
      (fun r => r.data_type ∉ SUPPORTED_DATA_TYPES)).map (·.data_type)),
      ?_, ?_⟩
    · simp only [bulkUploadColumns]
      rw [hmiss]
      rw [if_neg (by simp), if_pos hinv]
    intro t
    rw [mem_uniqueFirst]
    simp only [List.mem_map, List.mem_filter, decide_eq_true_eq]
    constructor
    · rintro ⟨r, ⟨hr, hrt⟩, rfl⟩
      exact ⟨r, hr, rfl, hrt⟩
    · rintro ⟨r, hr, rfl, hrt⟩
      exact ⟨r, ⟨hr, hrt⟩, rfl⟩

/-- C4 witness: the amended behavior at the claim's concrete CSV. -/
theorem bulk_import_all_or_nothing_witness :
    ∃ ts, bulkUploadColumns csvMixedRows = .unsupportedTypes ts ∧
      ∀ t, t ∈ ts ↔ ∃ r ∈ csvMixedRows.rows,
        r.data_type = t ∧ t ∉ SUPPORTED_DATA_TYPES :=
  (bulk_import_all_or_nothing csvMixedRows (by decide) (by decide)
    (by decide)).2 ⟨⟨"c", "d", "notatype"⟩, by decide, by decide⟩

/-!
## C1 — the export-time validator
-/

/-- C1 counterexample: `docNoSourceSystem` satisfies all three conditions
named by the claim (both table names truthy, columns non-empty), yet
validation returns a non-empty issue list — the validator also requires
`source_system`.  And on the all-empty default document the issue count is
4, not the claimed 3. -/
theorem validate_counterexample :
    truthyO (vlookup (vgetD (vgetD docNoSourceSystem.table_config "metadata")
      "tier1") "table") = true ∧
    truthyO (vlookup (vgetD (vgetD docNoSourceSystem.table_config "metadata")
      "tier2") "table") = true ∧
    truthyO (vlookup docNoSourceSystem.table_config "columns") = true ∧
    validateSession docNoSourceSystem = ["Source system is required"] ∧
    (validateSession defaultSession).length = 4 := by decide

/-- C1 (amended): the validator returns a non-empty issue list iff at
least one of `source_system`, `tier1.table`, `tier2.table` or the column
list is empty/absent, reporting all violated conditions simultaneously;
a document with `source_system` set but both table names and columns
empty yields exactly 3 issues (the all-empty document yields 4). -/
theorem validate_iff_and_count (s : Session) :
    (validateSession s ≠ [] ↔
      (truthyO (vlookup s.source_config "source_system") = false ∨
       truthyO (vlookup (vgetD (vgetD s.table_config "metadata") "tier1")
         "table") = false ∨
       truthyO (vlookup (vgetD (vgetD s.table_config "metadata") "tier2")
         "table") = false ∨
       truthyO (vlookup s.table_config "columns") = false)) ∧
    (truthyO (vlookup s.source_config "source_system") = true →
     truthyO (vlookup (vgetD (vgetD s.table_config "metadata") "tier1")
       "table") = false →
     truthyO (vlookup (vgetD (vgetD s.table_config "metadata") "tier2")
       "table") = false →
     truthyO (vlookup s.table_config "columns") = false →
      (validateSession s).length = 3) := by
  cases hA : truthyO (vlookup s.source_config "source_system") <;>
  cases hB : truthyO (vlookup (vgetD (vgetD s.table_config "metadata")
    "tier1") "table") <;>
  cases hC : truthyO (vlookup (vgetD (vgetD s.table_config "metadata")
    "tier2") "table") <;>
  cases hD : truthyO (vlookup s.table_config "columns") <;>
    simp [validateSession, hA, hB, hC, hD]

/-- C1 witness: a document with only `source_system` set yields exactly
the three table/column issues. -/
theorem validate_iff_and_count_witness :
    (validateSession docOnlySourceSystem).length = 3 :=
  (validate_iff_and_count docOnlySourceSystem).2
    (by decide) (by decide) (by decide) (by decide)

/-!
## C3 — the tier-2 load-type transition
-/

/-- C3: whenever the tier-2 `load_type` is changed, the transition is
applied atomically: changing to `scd2` when no (truthy)
`historical_load_columns` existed installs exactly the default triple
`{is_current:string, effective_start_date:date, effective_end_date:date}`;
changing to `scd1` removes `historical_load_columns` entirely; and after
every change the columns are present exactly when the new load type is
`scd2`. -/
theorem set_load_type_invariant (kvs : List (String × Value))
    (newType : String)
    (hchange : strGet (.map kvs) "load_type" ≠ newType) :
    (newType = "scd2" →
      truthyO (vlookup (Value.map kvs) "historical_load_columns") = false →
      vlookup (setLoadType (.map kvs) newType) "historical_load_columns" =
        some historicalDefaultColumns) ∧
    (newType = "scd1" →
      vlookup (setLoadType (.map kvs) newType) "historical_load_columns"
        = none) ∧
    ((vlookup (setLoadType (.map kvs) newType)
        "historical_load_columns").isSome = true ↔ newType = "scd2") := by
  have hset : alookup (aset kvs "load_type" (.str newType)) "load_type" =
      some (.str newType) := alookup_aset_self kvs "load_type" _
  have hother : alookup (aset kvs "load_type" (.str newType))
      "historical_load_columns" = alookup kvs "historical_load_columns" :=
    alookup_aset_ne kvs "load_type" "historical_load_columns" _ (by decide)
  simp only [setLoadType]
  rw [if_pos hchange]
  simp only [update_load_type, vset, vlookup, hset, hother]
  by_cases hT : newType = "scd2"
  · subst hT
    by_cases hH : truthyO (alookup kvs "historical_load_columns") = true
    · rw [if_neg (by simp [hH]), if_neg (by simp)]
      refine ⟨fun _ hf => ?_, fun h => by simp at h, ?_⟩
      · simp only [vlookup] at hf
        rw [hf] at hH
        simp at hH
      · simp only [vlookup, hother, iff_true]
        exact truthyO_isSome _ hH
    · rw [if_pos ⟨rfl, by simp [hH]⟩]
      simp only [vlookup, vset]
      refine ⟨fun _ _ => ?_, fun h => by simp at h, ?_⟩
      · exact alookup_aset_self _ _ _
      · simp [alookup_aset_self]
  · rw [if_neg (by simp [hT])]
    cases ho : alookup kvs "historical_load_columns" with
    | some w =>
      rw [if_pos ⟨by simp [hT], by simp [ho]⟩]
      simp only [vdel, vlookup]
      refine ⟨fun h _ => absurd h hT, fun _ => ?_, ?_⟩
      · exact alookup_adel_self _ _
      · simp [alookup_adel_self, hT]
    | none =>
      rw [if_neg (by simp [ho])]
      simp only [vlookup, hother, ho]
      refine ⟨fun h _ => absurd h hT, fun _ => ?_, ?_⟩ <;> simp [hT]

/-- C3 witness: the two transitions at concrete tier-2 metadata. -/
theorem set_load_type_invariant_witness :
    vlookup (setLoadType (.map [("load_type", Value.str "scd1")]) "scd2")
      "historical_load_columns" = some historicalDefaultColumns ∧
    vlookup (setLoadType (.map [("load_type", Value.str "scd2"),
        ("historical_load_columns", historicalDefaultColumns)]) "scd1")
      "historical_load_columns" = none := by
  constructor
  · exact (set_load_type_invariant [("load_type", .str "scd1")] "scd2"
      (by decide)).1 rfl (by decide)
  · exact (set_load_type_invariant [("load_type", .str "scd2"),
      ("historical_load_columns", historicalDefaultColumns)] "scd1"
      (by decide)).2.1 rfl

/-!
## C2 — invariant violations do not block serialization
-/

/-- C2 counterexample: the all-empty default document violates every
export invariant (non-empty error list), yet `render_generate_yaml`
still serialises it (the YAML preview text is produced, line 1066) and a
click on `Save to File` still writes the file — the claim that violations
block serialization and prevent any write is false. -/
theorem export_not_blocked_counterexample :
    (renderGenerateYaml defaultSession "./pipeline_configs"
      "pipeline_config.yml" true).error_messages ≠ [] ∧
    (renderGenerateYaml defaultSession "./pipeline_configs"
      "pipeline_config.yml" true).yaml_config =
      some (serializeSession defaultSession) ∧
    (renderGenerateYaml defaultSession "./pipeline_configs"
      "pipeline_config.yml" true).saved_file ≠ none := by
  refine ⟨by decide, rfl, by simp [renderGenerateYaml]⟩

/-- C2 (amended): for every document — invariant-violating or not —
`render_generate_yaml` reports the violations only as error messages: the
serialized YAML text is always produced from the current document, the
in-memory document is left untouched, and a save click writes the
serialized text regardless of the errors. -/
theorem export_errors_do_not_block (s : Session) (dir fn : String)
    (clicked : Bool) :
    (renderGenerateYaml s dir fn clicked).yaml_config =
      some (serializeSession s) ∧
    (renderGenerateYaml s dir fn clicked).session_after = s ∧
    (clicked = true →
      (renderGenerateYaml s dir fn clicked).saved_file =
        some (dir ++ "/" ++ fn, serializeSession s)) := by
  refine ⟨rfl, rfl, fun h => ?_⟩
  simp [renderGenerateYaml, h]

/-- C2 witness: the save branch at concrete arguments. -/
theorem export_errors_do_not_block_witness :
    (renderGenerateYaml defaultSession "./pipeline_configs" "out.yml"
      true).saved_file =
      some ("./pipeline_configs" ++ "/" ++ "out.yml",
        serializeSession defaultSession) :=
  (export_errors_do_not_block defaultSession "./pipeline_configs" "out.yml"
    true).2.2 rfl

/-!
## C5 — helper lemmas for the serialization round trip
-/

theorem spacesN_length (i : Nat) : (spacesN i).length = i := by
  simp [spacesN]

theorem drop_spaces (i : Nat) (r : List Char) : (spacesN i ++ r).drop i = r := by
  have h := List.drop_left (spacesN i) r
  rwa [spacesN_length] at h

theorem indentOf_spaces {c : Char} (i : Nat) (cs : List Char) (h : c ≠ ' ') :
    indentOf (spacesN i ++ c :: cs) = i := by
  induction i with
  | zero => simp [spacesN, indentOf, h]
  | succ n ih =>
    have hs : spacesN (n + 1) = ' ' :: spacesN n := by
      simp [spacesN, List.replicate_succ]
    rw [hs, List.cons_append]
    simp [indentOf, ih]

theorem ne_of_not_mem_leadBanned {c : Char} (h : c ∉ leadBanned) :
    c ≠ ' ' ∧ c ≠ '-' ∧ c ≠ '\'' ∧ c ≠ '{' ∧ c ≠ '[' := by
  refine ⟨?_, ?_, ?_, ?_, ?_⟩ <;> (rintro rfl; exact h (by decide))

theorem str_data_inj {a b : String} (h : a.data = b.data) : a = b := by
  cases a; cases b; exact congrArg String.mk h

theorem splitCS_append (a b : List Char) : ':' ∉ a →
    splitColonSpace (a ++ ':' :: ' ' :: b) = some (a, b) := by
  induction a with
  | nil => intro _; rfl
  | cons c a' ih =>
    intro ha
    have hc : c ≠ ':' := fun h => ha (by simp [h])
    have ha' : ':' ∉ a' := fun h => ha (List.mem_cons_of_mem _ h)
    cases a' with
    | nil => simp [splitColonSpace, hc]
    | cons d a'' =>
      have ihh := ih ha'
      rw [List.cons_append] at ihh
      simp [splitColonSpace, hc, ihh]

theorem splitCS_no_colon (a : List Char) : ':' ∉ a →
    splitColonSpace a = none := by
  induction a with
  | nil => intro _; rfl
  | cons c a' ih =>
    intro ha
    have hc : c ≠ ':' := fun h => ha (by simp [h])
    have ha' : ':' ∉ a' := fun h => ha (List.mem_cons_of_mem _ h)
    cases a' with
    | nil => rfl
    | cons d a'' => simp [splitColonSpace, hc, ih ha']

theorem splitCS_colon_end (a : List Char) : ':' ∉ a →
    splitColonSpace (a ++ [':']) = none := by
  induction a with
  | nil => intro _; rfl
  | cons c a' ih =>
    intro ha
    have hc : c ≠ ':' := fun h => ha (by simp [h])
    have ha' : ':' ∉ a' := fun h => ha (List.mem_cons_of_mem _ h)
    cases a' with
    | nil => simp [splitColonSpace, hc]
    | cons d a'' =>
      have ihh := ih ha'
      rw [List.cons_append] at ihh
      simp [splitColonSpace, hc, ihh]

theorem isDash_cons_ne {c : Char} (r : List Char) (h : c ≠ '-') :
    isDash (c :: r) = false := by
  cases r <;> simp [isDash, h]

theorem wfKey_spec (k : String) (h : wfKey k = true) :
    (∃ c cs, k.data = c :: cs ∧ c ∉ leadBanned) ∧ ':' ∉ k.data := by
  unfold wfKey at h
  cases hd : k.data with
  | nil => rw [hd] at h; simp at h
  | cons c cs =>
    rw [hd] at h
    simp only [Bool.and_eq_true, decide_eq_true_eq] at h
    exact ⟨⟨c, cs, rfl, h.1.1.1.1⟩, hd ▸ h.1.1.1.2⟩

theorem plainSafe_spec (s : String) (h : plainSafe s = true) :
    (∃ c cs, s.data = c :: cs ∧ c ∉ leadBanned) ∧ ':' ∉ s.data ∧
    '\'' ∉ s.data ∧ s ∉ reservedScalars := by
  unfold plainSafe at h
  cases hd : s.data with
  | nil => rw [hd] at h; simp at h
  | cons c cs =>
    rw [hd] at h
    simp only [Bool.and_eq_true, decide_eq_true_eq] at h
    exact ⟨⟨c, cs, rfl, h.1.1.1.1.1.1.1⟩, hd ▸ h.1.1.1.1.1.1.2,
      hd ▸ h.1.1.1.1.2, h.1.1.2⟩

theorem parseInline_scalar (v : Value) (h : wfScalar v = true) :
    parseInline (scalarChars v) = some v := by
  cases v with
  | bool b => cases b <;> decide
  | str s =>
    by_cases hp : plainSafe s = true
    · obtain ⟨⟨c, cs, hd, hlead⟩, hcolon, hquote, hres⟩ := plainSafe_spec s hp
      obtain ⟨-, -, hq, hbrace, hbrack⟩ := ne_of_not_mem_leadBanned hlead
      simp only [scalarChars, if_pos hp, parseInline, hd]
      rw [if_neg (by simp), if_neg (by simp [isQuote, hq])]
      rw [if_neg ?hbr, if_neg ?hbk, if_neg ?ht, if_neg ?hf]
      case hbr => intro hh; exact hbrace (by injection hh)
      case hbk => intro hh; exact hbrack (by injection hh)
      case ht =>
        intro hh
        exact hres (by rw [str_data_inj (a := s) (b := "true") (hd ▸ hh)]; decide)
      case hf =>
        intro hh
        exact hres (by rw [str_data_inj (a := s) (b := "false") (hd ▸ hh)]; decide)
      rw [← hd]
    · simp only [scalarChars, if_neg hp, parseInline]
      rw [if_neg (by simp), if_pos (by simp [isQuote])]
      simp [unquoteTok, List.getLast?_concat, List.dropLast_concat]
  | list es => simp [wfScalar] at h
  | map kvs => simp [wfScalar] at h

theorem emitKV_shape (i : Nat) (k : String) (v : Value) :
    ∃ r rem, emitKV i k v = (spacesN i ++ (k.data ++ r)) :: rem := by
  cases v with
  | str s => exact ⟨_, _, rfl⟩
  | bool b => exact ⟨_, _, rfl⟩
  | list es =>
    cases es with
    | nil => exact ⟨_, _, rfl⟩
    | cons e es' => exact ⟨_, _, rfl⟩
  | map kvs =>
    cases kvs with
    | nil => exact ⟨_, _, rfl⟩
    | cons kv kvs' => exact ⟨_, _, rfl⟩

theorem emitItems_shape (i : Nat) (es : List Value) (hne : es ≠ []) :
    ∃ r rem, emitItems i es = (spacesN i ++ ('-' :: ' ' :: r)) :: rem := by
  cases es with
  | nil => exact absurd rfl hne
  | cons e es' =>
    cases e with
    | str s => exact ⟨_, _, rfl⟩
    | bool b => exact ⟨_, _, rfl⟩
    | list l => exact ⟨_, _, rfl⟩
    | map kvs =>
      cases kvs with
      | nil => exact ⟨_, _, rfl⟩
      | cons kv kvs' =>
        obtain ⟨k0, v0⟩ := kv
        exact ⟨_, _, rfl⟩

theorem indentOf_keyline (i : Nat) (k : String) (r : List Char)
    (h : wfKey k = true) : indentOf (spacesN i ++ (k.data ++ r)) = i := by
  obtain ⟨⟨c, cs, hd, hlead⟩, -⟩ := wfKey_spec k h
  obtain ⟨hsp, -, -, -, -⟩ := ne_of_not_mem_leadBanned hlead
  rw [hd, List.cons_append]
  exact indentOf_spaces i _ hsp

theorem keyline_not_dash (i : Nat) (k : String) (r : List Char)
    (h : wfKey k = true) :
    isDash ((spacesN i ++ (k.data ++ r)).drop i) = false := by
  rw [drop_spaces]
  obtain ⟨⟨c, cs, hd, hlead⟩, -⟩ := wfKey_spec k h
  obtain ⟨-, hdash, -, -, -⟩ := ne_of_not_mem_leadBanned hlead
  rw [hd, List.cons_append]
  exact isDash_cons_ne _ hdash

theorem indentOf_dashline (i : Nat) (r : List Char) :
    indentOf (spacesN i ++ '-' :: ' ' :: r) = i :=
  indentOf_spaces i _ (by decide)

theorem stopsFields_mono {i j : Nat} (hij : i ≤ j) {ls : List (List Char)}
    (hs : StopsFields i ls) : StopsFields j ls := by
  cases ls with
  | nil => trivial
  | cons l ls' => simp only [StopsFields] at hs ⊢; omega

theorem wfFields_cons {k : String} {v : Value} {kvs : List (String × Value)}
    (h : wfFields ((k, v) :: kvs) = true) :
    wfKey k = true ∧ wfMapVal v = true ∧ wfFields kvs = true := by
  simp only [wfFields, Bool.and_eq_true] at h
  exact ⟨h.1.1, h.1.2, h.2⟩

theorem stopsFields_emit (i j : Nat) (kvs : List (String × Value))
    (rest : List (List Char)) (hwf : wfFields kvs = true)
    (hstop : StopsFields i rest) (hij : i < j) :
    StopsFields j (emitFields i kvs ++ rest) := by
  cases kvs with
  | nil =>
    simp only [emitFields, List.nil_append]
    exact stopsFields_mono (Nat.le_of_lt hij) hstop
  | cons kv kvs' =>
    obtain ⟨k, v⟩ := kv
    obtain ⟨hk, -, -⟩ := wfFields_cons hwf
    obtain ⟨r, rem, he⟩ := emitKV_shape i k v
    simp only [emitFields, he, List.cons_append, List.append_assoc,
      StopsFields]
    rw [indentOf_keyline i k r hk]
    exact hij

theorem stopsItems_fields (i : Nat) (kvs : List (String × Value))
    (rest : List (List Char)) (hwf : wfFields kvs = true)
    (hstop : StopsFields i rest) :
    StopsItems i (emitFields i kvs ++ rest) := by
  cases kvs with
  | nil =>
    simp only [emitFields, List.nil_append]
    cases rest with
    | nil => trivial
    | cons l ls =>
      simp only [StopsFields] at hstop
      simp only [StopsItems]
      exact Or.inl hstop
  | cons kv kvs' =>
    obtain ⟨k, v⟩ := kv
    obtain ⟨hk, -, -⟩ := wfFields_cons hwf
    obtain ⟨r, rem, he⟩ := emitKV_shape i k v
    simp only [emitFields, he, List.cons_append, List.append_assoc,
      StopsItems]
    exact Or.inr ⟨indentOf_keyline i k r hk, keyline_not_dash i k r hk⟩

theorem stopsFields_items (i j : Nat) (es : List Value)
    (rest : List (List Char)) (hstop : StopsItems i rest) (hij : i < j) :
    StopsFields j (emitItems i es ++ rest) := by
  cases es with
  | nil =>
    simp only [emitItems, List.nil_append]
    cases rest with
    | nil => trivial
    | cons l ls =>
      simp only [StopsItems] at hstop
      simp only [StopsFields]
      rcases hstop with h | ⟨h, -⟩ <;> omega
  | cons e es' =>
    obtain ⟨r, rem, he⟩ := emitItems_shape i (e :: es') (by simp)
    simp only [he, List.cons_append, StopsFields]
    rw [indentOf_dashline]
    exact hij

set_option maxHeartbeats 1000000

theorem string_mk_data (s : String) : String.mk s.data = s := by
  cases s; rfl

mutual

theorem rt_fields : ∀ (fuel i : Nat) (kvs : List (String × Value))
    (rest : List (List Char)), wfFields kvs = true → StopsFields i rest →
    (emitFields i kvs ++ rest).length < fuel →
    parseFields fuel i (emitFields i kvs ++ rest) = some (kvs, rest)
  | fuel, i, [], rest, hwf, hstop, hfuel => by
    cases fuel with
    | zero => exact absurd hfuel (Nat.not_lt_zero _)
    | succ f =>
    simp only [emitFields, List.nil_append] at hfuel ⊢
    cases rest with
    | nil => rfl
    | cons l ls =>
      simp only [StopsFields] at hstop
      simp only [parseFields]
      rw [if_pos hstop]
  | fuel, i, (k, Value.str s) :: kvs', rest, hwf, hstop, hfuel => by
    cases fuel with
    | zero => exact absurd hfuel (Nat.not_lt_zero _)
    | succ f =>
    obtain ⟨hk, hv, hkvs'⟩ := wfFields_cons hwf
    obtain ⟨⟨c0, cs0, hd, hlead⟩, hkcolon⟩ := wfKey_spec k hk
    have hline : emitFields i ((k, Value.str s) :: kvs') ++ rest =
        (spacesN i ++ (k.data ++ (':' :: ' ' :: scalarChars (.str s)))) ::
        (emitFields i kvs' ++ rest) := by
      simp [emitFields, emitKV]
    rw [hline] at hfuel ⊢
    have hind := indentOf_keyline i k (':' :: ' ' :: scalarChars (.str s)) hk
    have hsp := splitCS_append k.data (scalarChars (.str s)) hkcolon
    have hpi := parseInline_scalar (.str s) (by simpa [wfScalar] using hv)
    have hrec := rt_fields f i kvs' rest hkvs' hstop
      (by simp only [List.length_cons] at hfuel; omega)
    simp only [parseFields, hind, drop_spaces, hsp, hpi, hrec,
      lt_self_iff_false, if_false, string_mk_data]
    simp
  | fuel, i, (k, Value.bool b) :: kvs', rest, hwf, hstop, hfuel => by
    cases fuel with
    | zero => exact absurd hfuel (Nat.not_lt_zero _)
    | succ f =>
    obtain ⟨hk, hv, hkvs'⟩ := wfFields_cons hwf
    obtain ⟨⟨c0, cs0, hd, hlead⟩, hkcolon⟩ := wfKey_spec k hk
    have hline : emitFields i ((k, Value.bool b) :: kvs') ++ rest =
        (spacesN i ++ (k.data ++ (':' :: ' ' :: scalarChars (.bool b)))) ::
        (emitFields i kvs' ++ rest) := by
      simp [emitFields, emitKV]
    rw [hline] at hfuel ⊢
    have hind := indentOf_keyline i k (':' :: ' ' :: scalarChars (.bool b)) hk
    have hsp := splitCS_append k.data (scalarChars (.bool b)) hkcolon
    have hpi := parseInline_scalar (.bool b) (by simp [wfScalar])
    have hrec := rt_fields f i kvs' rest hkvs' hstop
      (by simp only [List.length_cons] at hfuel; omega)
    simp only [parseFields, hind, drop_spaces, hsp, hpi, hrec,
      lt_self_iff_false, if_false, string_mk_data]
    simp
  | fuel, i, (k, Value.map []) :: kvs', rest, hwf, hstop, hfuel => by
    cases fuel with
    | zero => exact absurd hfuel (Nat.not_lt_zero _)
    | succ f =>
    obtain ⟨hk, hv, hkvs'⟩ := wfFields_cons hwf
    obtain ⟨⟨c0, cs0, hd, hlead⟩, hkcolon⟩ := wfKey_spec k hk
    have hline : emitFields i ((k, Value.map []) :: kvs') ++ rest =
        (spacesN i ++ (k.data ++ (':' :: ' ' :: ['{', '}']))) ::
        (emitFields i kvs' ++ rest) := by
      simp [emitFields, emitKV]
    rw [hline] at hfuel ⊢
    have hind := indentOf_keyline i k (':' :: ' ' :: ['{', '}']) hk
    have hsp := splitCS_append k.data ['{', '}'] hkcolon
    have hpi : parseInline ['{', '}'] = some (Value.map []) := by decide
    have hrec := rt_fields f i kvs' rest hkvs' hstop
      (by simp only [List.length_cons] at hfuel; omega)
    simp only [parseFields, hind, drop_spaces, hsp, hpi, hrec,
      lt_self_iff_false, if_false, string_mk_data]
    simp
  | fuel, i, (k, Value.list []) :: kvs', rest, hwf, hstop, hfuel => by
    cases fuel with
    | zero => exact absurd hfuel (Nat.not_lt_zero _)
    | succ f =>
    obtain ⟨hk, hv, hkvs'⟩ := wfFields_cons hwf
    obtain ⟨⟨c0, cs0, hd, hlead⟩, hkcolon⟩ := wfKey_spec k hk
    have hline : emitFields i ((k, Value.list []) :: kvs') ++ rest =
        (spacesN i ++ (k.data ++ (':' :: ' ' :: ['[', ']']))) ::
        (emitFields i kvs' ++ rest) := by
      simp [emitFields, emitKV]
    rw [hline] at hfuel ⊢
    have hind := indentOf_keyline i k (':' :: ' ' :: ['[', ']']) hk
    have hsp := splitCS_append k.data ['[', ']'] hkcolon
    have hpi : parseInline ['[', ']'] = some (Value.list []) := by decide
    have hrec := rt_fields f i kvs' rest hkvs' hstop
      (by simp only [List.length_cons] at hfuel; omega)
    simp only [parseFields, hind, drop_spaces, hsp, hpi, hrec,
      lt_self_iff_false, if_false, string_mk_data]
    simp
  | fuel, i, (k, Value.map ((k1, v1) :: kvs1)) :: kvs', rest, hwf, hstop,
      hfuel => by
    cases fuel with
    | zero => exact absurd hfuel (Nat.not_lt_zero _)
    | succ f =>
    obtain ⟨hk, hv, hkvs'⟩ := wfFields_cons hwf
    obtain ⟨⟨c0, cs0, hd, hlead⟩, hkcolon⟩ := wfKey_spec k hk
    have hv' : wfFields ((k1, v1) :: kvs1) = true := by
      simpa [wfMapVal] using hv
    obtain ⟨hk1, -, -⟩ := wfFields_cons hv'
    obtain ⟨r1, rem1, he1⟩ := emitKV_shape (i + 2) k1 v1
    have hline : emitFields i ((k, Value.map ((k1, v1) :: kvs1)) :: kvs')
        ++ rest =
        (spacesN i ++ (k.data ++ [':'])) ::
        (emitFields (i + 2) ((k1, v1) :: kvs1) ++
          (emitFields i kvs' ++ rest)) := by
      simp [emitFields, emitKV]
    rw [hline] at hfuel ⊢
    have hchild : emitFields (i + 2) ((k1, v1) :: kvs1) ++
        (emitFields i kvs' ++ rest) =
        (spacesN (i + 2) ++ (k1.data ++ r1)) ::
        (rem1 ++ emitFields (i + 2) kvs1 ++
          (emitFields i kvs' ++ rest)) := by
      simp [emitFields, he1]
    have hind := indentOf_keyline i k [':'] hk
    have hind2 := indentOf_keyline (i + 2) k1 r1 hk1
    have hsp := splitCS_colon_end k.data hkcolon
    have hrec1 := rt_fields f (i + 2) ((k1, v1) :: kvs1)
      (emitFields i kvs' ++ rest) hv'
      (stopsFields_emit i (i + 2) kvs' rest hkvs' hstop (by omega))
      (by simp only [List.length_cons] at hfuel; omega)
    have hrec2 := rt_fields f i kvs' rest hkvs' hstop
      (by simp only [List.length_cons, List.length_append] at hfuel ⊢
          omega)
    rw [hchild] at hrec1
    simp only [parseFields, hind, drop_spaces, hsp,
      List.getLast?_concat, List.dropLast_concat, hchild, hind2,
      lt_self_iff_false, if_false, hrec1, hrec2, string_mk_data]
    simp
  | fuel, i, (k, Value.list (e1 :: es1)) :: kvs', rest, hwf, hstop,
      hfuel => by
    cases fuel with
    | zero => exact absurd hfuel (Nat.not_lt_zero _)
    | succ f =>
    obtain ⟨hk, hv, hkvs'⟩ := wfFields_cons hwf
    obtain ⟨⟨c0, cs0, hd, hlead⟩, hkcolon⟩ := wfKey_spec k hk
    have hv' : wfItems (e1 :: es1) = true := by
      simpa [wfMapVal] using hv
    obtain ⟨r1, rem1, he1⟩ := emitItems_shape i (e1 :: es1) (by simp)
    have hline : emitFields i ((k, Value.list (e1 :: es1)) :: kvs')
        ++ rest =
        (spacesN i ++ (k.data ++ [':'])) ::
        (emitItems i (e1 :: es1) ++ (emitFields i kvs' ++ rest)) := by
      simp [emitFields, emitKV]
    rw [hline] at hfuel ⊢
    have hchild : emitItems i (e1 :: es1) ++
        (emitFields i kvs' ++ rest) =
        (spacesN i ++ ('-' :: ' ' :: r1)) ::
        (rem1 ++ (emitFields i kvs' ++ rest)) := by
      rw [he1]; simp
    have hind := indentOf_keyline i k [':'] hk
    have hind2 := indentOf_dashline i r1
    have hsp := splitCS_colon_end k.data hkcolon
    have hrec1 := rt_items f i (e1 :: es1)
      (emitFields i kvs' ++ rest) hv'
      (stopsItems_fields i kvs' rest hkvs' hstop)
      (by simp only [List.length_cons] at hfuel; omega)
    have hrec2 := rt_fields f i kvs' rest hkvs' hstop
      (by simp only [List.length_cons, List.length_append] at hfuel ⊢
          omega)
    rw [hchild] at hrec1
    simp only [parseFields, hind, drop_spaces, hsp,
      List.getLast?_concat, List.dropLast_concat, hchild, hind2,
      isDash, lt_self_iff_false, if_false, hrec1, hrec2,
      string_mk_data]
    simp
termination_by fuel i kvs => sizeOf kvs
decreasing_by all_goals (simp_wf; try omega)

theorem rt_items : ∀ (fuel i : Nat) (es : List Value)
    (rest : List (List Char)), wfItems es = true → StopsItems i rest →
    (emitItems i es ++ rest).length < fuel →
    parseItems fuel i (emitItems i es ++ rest) = some (es, rest)
  | fuel, i, [], rest, hwf, hstop, hfuel => by
    cases fuel with
    | zero => exact absurd hfuel (Nat.not_lt_zero _)
    | succ f =>
    simp only [emitItems, List.nil_append] at hfuel ⊢
    cases rest with
    | nil => rfl
    | cons l ls =>
      simp only [StopsItems] at hstop
      simp only [parseItems]
      rcases hstop with h | ⟨h1, h2⟩
      · rw [if_pos (by omega)]
      · rw [if_neg (by omega)]
        rw [if_pos (by simp [h2])]
  | fuel, i, Value.str s :: es', rest, hwf, hstop, hfuel => by
    cases fuel with
    | zero => exact absurd hfuel (Nat.not_lt_zero _)
    | succ f =>
    have hwf' : wfStr s = true ∧ wfItems es' = true := by
      simpa [wfItems, Bool.and_eq_true] using hwf
    have hline : emitItems i (Value.str s :: es') ++ rest =
        (spacesN i ++ ('-' :: ' ' :: scalarChars (.str s))) ::
        (emitItems i es' ++ rest) := by
      simp [emitItems]
    rw [hline] at hfuel ⊢
    have hind := indentOf_dashline i (scalarChars (.str s))
    have hpi := parseInline_scalar (.str s) (by simp [wfScalar, hwf'.1])
    have hrec := rt_items f i es' rest hwf'.2 hstop
      (by simp only [List.length_cons] at hfuel; omega)
    by_cases hp : plainSafe s = true
    · obtain ⟨⟨c, cs, hd, hlead⟩, hcolon, -, -⟩ := plainSafe_spec s hp
      obtain ⟨-, -, hq, -, -⟩ := ne_of_not_mem_leadBanned hlead
      have hsc : scalarChars (.str s) = s.data := by
        simp [scalarChars, hp]
      have hiq : isQuote (scalarChars (.str s)) = false := by
        rw [hsc, hd]; simp [isQuote, hq]
      have hsp : splitColonSpace (scalarChars (.str s)) = none := by
        rw [hsc]; exact splitCS_no_colon s.data hcolon
      simp only [parseItems, hind, drop_spaces, isDash,
        List.drop_succ_cons, List.drop_zero, hiq, hsp, hpi, hrec,
        string_mk_data]
      simp
    · have hsc : scalarChars (.str s) = '\'' :: (s.data ++ ['\'']) := by
        simp [scalarChars, hp]
      have hiq : isQuote (scalarChars (.str s)) = true := by
        rw [hsc]; simp [isQuote]
      simp only [parseItems, hind, drop_spaces, isDash,
        List.drop_succ_cons, List.drop_zero, hiq, hpi, hrec,
        string_mk_data]
      simp
  | fuel, i, Value.bool b :: es', rest, hwf, hstop, hfuel => by
    cases fuel with
    | zero => exact absurd hfuel (Nat.not_lt_zero _)
    | succ f =>
    have hwf' : wfItems es' = true := by
      simpa [wfItems] using hwf
    have hline : emitItems i (Value.bool b :: es') ++ rest =
        (spacesN i ++ ('-' :: ' ' :: scalarChars (.bool b))) ::
        (emitItems i es' ++ rest) := by
      simp [emitItems]
    rw [hline] at hfuel ⊢
    have hind := indentOf_dashline i (scalarChars (.bool b))
    have hpi := parseInline_scalar (.bool b) (by simp [wfScalar])
    have hiq : isQuote (scalarChars (.bool b)) = false := by
      cases b <;> rfl
    have hsp : splitColonSpace (scalarChars (.bool b)) = none := by
      cases b <;> rfl
    have hrec := rt_items f i es' rest hwf' hstop
      (by simp only [List.length_cons] at hfuel; omega)
    simp only [parseItems, hind, drop_spaces, isDash,
      List.drop_succ_cons, List.drop_zero, hiq, hsp, hpi, hrec,
      string_mk_data]
    simp
  | fuel, i, Value.list l :: es', rest, hwf, hstop, hfuel => by
    simp [wfItems] at hwf
  | fuel, i, Value.map [] :: es', rest, hwf, hstop, hfuel => by
    simp [wfItems] at hwf
  | fuel, i, Value.map ((k0, Value.str s0) :: kvs0) :: es', rest, hwf,
      hstop, hfuel => by
    cases fuel with
    | zero => exact absurd hfuel (Nat.not_lt_zero _)
    | succ f =>
    obtain ⟨⟨⟨hk0, hs0⟩, hkvs0⟩, hes'⟩ :
        ((wfKey k0 = true ∧ wfStr s0 = true) ∧ wfFields kvs0 = true) ∧
          wfItems es' = true := by
      simpa [wfItems, Bool.and_eq_true] using hwf
    obtain ⟨⟨c0, cs0, hd0, hlead0⟩, hk0colon⟩ := wfKey_spec k0 hk0
    obtain ⟨-, -, hq0, -, -⟩ := ne_of_not_mem_leadBanned hlead0
    have hline : emitItems i (Value.map ((k0, Value.str s0) :: kvs0) :: es')
        ++ rest =
        (spacesN i ++ ('-' :: ' ' ::
          (k0.data ++ (':' :: ' ' :: scalarChars (.str s0))))) ::
        (emitFields (i + 2) kvs0 ++ (emitItems i es' ++ rest)) := by
      simp [emitItems]
    rw [hline] at hfuel ⊢
    have hind := indentOf_dashline i
      (k0.data ++ (':' :: ' ' :: scalarChars (.str s0)))
    have hiq : isQuote (k0.data ++ (':' :: ' ' :: scalarChars (.str s0)))
        = false := by
      rw [hd0, List.cons_append]; simp [isQuote, hq0]
    have hsp := splitCS_append k0.data (scalarChars (.str s0)) hk0colon
    have hpi := parseInline_scalar (.str s0) (by simp [wfScalar, hs0])
    have hrec1 := rt_fields f (i + 2) kvs0 (emitItems i es' ++ rest) hkvs0
      (stopsFields_items i (i + 2) es' rest hstop (by omega))
      (by simp only [List.length_cons] at hfuel; omega)
    have hrec2 := rt_items f i es' rest hes' hstop
      (by simp only [List.length_cons, List.length_append] at hfuel ⊢
          omega)
    simp only [parseItems, hind, drop_spaces, isDash,
      List.drop_succ_cons, List.drop_zero, hiq, hsp, hpi, hrec1, hrec2,
      string_mk_data]
    simp
  | fuel, i, Value.map ((k0, Value.bool b0) :: kvs0) :: es', rest, hwf,
      hstop, hfuel => by
    cases fuel with
    | zero => exact absurd hfuel (Nat.not_lt_zero _)
    | succ f =>
    obtain ⟨⟨hk0, hkvs0⟩, hes'⟩ :
        (wfKey k0 = true ∧ wfFields kvs0 = true) ∧ wfItems es' = true := by
      simpa [wfItems, Bool.and_eq_true] using hwf
    obtain ⟨⟨c0, cs0, hd0, hlead0⟩, hk0colon⟩ := wfKey_spec k0 hk0
    obtain ⟨-, -, hq0, -, -⟩ := ne_of_not_mem_leadBanned hlead0
    have hline : emitItems i (Value.map ((k0, Value.bool b0) :: kvs0) :: es')
        ++ rest =
        (spacesN i ++ ('-' :: ' ' ::
          (k0.data ++ (':' :: ' ' :: scalarChars (.bool b0))))) ::
        (emitFields (i + 2) kvs0 ++ (emitItems i es' ++ rest)) := by
      simp [emitItems]
    rw [hline] at hfuel ⊢
    have hind := indentOf_dashline i
      (k0.data ++ (':' :: ' ' :: scalarChars (.bool b0)))
    have hiq : isQuote (k0.data ++ (':' :: ' ' :: scalarChars (.bool b0)))
        = false := by
      rw [hd0, List.cons_append]; simp [isQuote, hq0]
    have hsp := splitCS_append k0.data (scalarChars (.bool b0)) hk0colon
    have hpi := parseInline_scalar (.bool b0) (by simp [wfScalar])
    have hrec1 := rt_fields f (i + 2) kvs0 (emitItems i es' ++ rest) hkvs0
      (stopsFields_items i (i + 2) es' rest hstop (by omega))
      (by simp only [List.length_cons] at hfuel; omega)
    have hrec2 := rt_items f i es' rest hes' hstop
      (by simp only [List.length_cons, List.length_append] at hfuel ⊢
          omega)
    simp only [parseItems, hind, drop_spaces, isDash,
      List.drop_succ_cons, List.drop_zero, hiq, hsp, hpi, hrec1, hrec2,
      string_mk_data]
    simp
  | fuel, i, Value.map ((k0, Value.list l0) :: kvs0) :: es', rest, hwf,
      hstop, hfuel => by
    simp [wfItems] at hwf
  | fuel, i, Value.map ((k0, Value.map m0) :: kvs0) :: es', rest, hwf,
      hstop, hfuel => by
    simp [wfItems] at hwf
termination_by fuel i es => sizeOf es
decreasing_by all_goals (simp_wf; try omega)

end

theorem wfKey_no_nl (k : String) (h : wfKey k = true) : '\n' ∉ k.data := by
  unfold wfKey at h
  cases hd : k.data with
  | nil => simp
  | cons c cs =>
    rw [hd] at h
    simp only [Bool.and_eq_true, decide_eq_true_eq] at h
    exact hd ▸ h.1.1.2

theorem noNL_spaces (i : Nat) : '\n' ∉ spacesN i := by
  simp [spacesN, List.mem_replicate]

theorem wfStr_no_nl (s : String) (h : wfStr s = true) : '\n' ∉ s.data := by
  simp only [wfStr, Bool.and_eq_true, decide_eq_true_eq] at h
  exact h.2

theorem noNL_scalar (v : Value) (h : wfScalar v = true) :
    '\n' ∉ scalarChars v := by
  cases v with
  | bool b => cases b <;> decide
  | str s =>
    have hs := wfStr_no_nl s (by simpa [wfScalar] using h)
    by_cases hp : plainSafe s = true
    · simpa [scalarChars, hp] using hs
    · simp [scalarChars, hp, hs]
  | list es => simp [wfScalar] at h
  | map kvs => simp [wfScalar] at h

mutual

theorem noNL_kv : ∀ (i : Nat) (k : String) (v : Value),
    wfKey k = true → wfMapVal v = true → ∀ l ∈ emitKV i k v, '\n' ∉ l
  | i, k, Value.str s => by
    intro hk hv l hl
    simp only [emitKV, List.mem_singleton] at hl
    subst hl
    simp only [List.mem_append, List.mem_cons]
    push_neg
    exact ⟨noNL_spaces i, wfKey_no_nl k hk, by decide, by decide,
      noNL_scalar (.str s) (by simpa [wfScalar] using hv)⟩
  | i, k, Value.bool b => by
    intro hk hv l hl
    simp only [emitKV, List.mem_singleton] at hl
    subst hl
    simp only [List.mem_append, List.mem_cons]
    push_neg
    exact ⟨noNL_spaces i, wfKey_no_nl k hk, by decide, by decide,
      noNL_scalar (.bool b) (by simp [wfScalar])⟩
  | i, k, Value.map [] => by
    intro hk hv l hl
    simp only [emitKV, List.mem_singleton] at hl
    subst hl
    simp only [List.mem_append, List.mem_cons]
    push_neg
    refine ⟨noNL_spaces i, wfKey_no_nl k hk, by decide, by decide, ?_⟩
    decide
  | i, k, Value.list [] => by
    intro hk hv l hl
    simp only [emitKV, List.mem_singleton] at hl
    subst hl
    simp only [List.mem_append, List.mem_cons]
    push_neg
    refine ⟨noNL_spaces i, wfKey_no_nl k hk, by decide, by decide, ?_⟩
    decide
  | i, k, Value.map (kv1 :: kvs1) => by
    intro hk hv l hl
    simp only [emitKV, List.mem_cons] at hl
    rcases hl with hl | hl
    · subst hl
      simp only [List.mem_append, List.mem_cons]
      push_neg
      exact ⟨noNL_spaces i, wfKey_no_nl k hk, by decide⟩
    · exact noNL_fields (i + 2) (kv1 :: kvs1) (by simpa [wfMapVal] using hv)
        l hl
  | i, k, Value.list (e1 :: es1) => by
    intro hk hv l hl
    simp only [emitKV, List.mem_cons] at hl
    rcases hl with hl | hl
    · subst hl
      simp only [List.mem_append, List.mem_cons]
      push_neg
      exact ⟨noNL_spaces i, wfKey_no_nl k hk, by decide⟩
    · exact noNL_items i (e1 :: es1) (by simpa [wfMapVal] using hv) l hl
termination_by i k v => sizeOf v
decreasing_by all_goals (simp_wf; try omega)

theorem noNL_fields : ∀ (i : Nat) (kvs : List (String × Value)),
    wfFields kvs = true → ∀ l ∈ emitFields i kvs, '\n' ∉ l
  | i, [] => by
    intro _ l hl
    simp [emitFields] at hl
  | i, (k, v) :: kvs' => by
    intro hwf l hl
    obtain ⟨hk, hv, hkvs'⟩ := wfFields_cons hwf
    simp only [emitFields, List.mem_append] at hl
    rcases hl with hl | hl
    · exact noNL_kv i k v hk hv l hl
    · exact noNL_fields i kvs' hkvs' l hl
termination_by i kvs => sizeOf kvs
decreasing_by all_goals (simp_wf; try omega)

theorem noNL_items : ∀ (i : Nat) (es : List Value),
    wfItems es = true → ∀ l ∈ emitItems i es, '\n' ∉ l
  | i, [] => by
    intro _ l hl
    simp [emitItems] at hl
  | i, Value.str s :: es' => by
    intro hwf l hl
    have hwf' : wfStr s = true ∧ wfItems es' = true := by
      simpa [wfItems, Bool.and_eq_true] using hwf
    simp only [emitItems, List.mem_cons] at hl
    rcases hl with hl | hl
    · subst hl
      simp only [List.mem_append, List.mem_cons]
      push_neg
      exact ⟨noNL_spaces i, by decide, by decide,
        noNL_scalar (.str s) (by simp [wfScalar, hwf'.1])⟩
    · exact noNL_items i es' hwf'.2 l hl
  | i, Value.bool b :: es' => by
    intro hwf l hl
    have hwf' : wfItems es' = true := by simpa [wfItems] using hwf
    simp only [emitItems, List.mem_cons] at hl
    rcases hl with hl | hl
    · subst hl
      simp only [List.mem_append, List.mem_cons]
      push_neg
      exact ⟨noNL_spaces i, by decide, by decide,
        noNL_scalar (.bool b) (by simp [wfScalar])⟩
    · exact noNL_items i es' hwf' l hl
  | i, Value.list l0 :: es' => by
    intro hwf
    simp [wfItems] at hwf
  | i, Value.map [] :: es' => by
    intro hwf
    simp [wfItems] at hwf
  | i, Value.map ((k0, Value.str s0) :: kvs0) :: es' => by
    intro hwf l hl
    obtain ⟨⟨⟨hk0, hs0⟩, hkvs0⟩, hes'⟩ :
        ((wfKey k0 = true ∧ wfStr s0 = true) ∧ wfFields kvs0 = true) ∧
          wfItems es' = true := by
      simpa [wfItems, Bool.and_eq_true] using hwf
    simp only [emitItems, List.mem_cons, List.mem_append] at hl
    rcases hl with hl | hl | hl
    · subst hl
      simp only [List.mem_append, List.mem_cons]
      push_neg
      exact ⟨noNL_spaces i, by decide, by decide, wfKey_no_nl k0 hk0,
        by decide, by decide, noNL_scalar (.str s0) (by simp [wfScalar, hs0])⟩
    · exact noNL_fields (i + 2) kvs0 hkvs0 l hl
    · exact noNL_items i es' hes' l hl
  | i, Value.map ((k0, Value.bool b0) :: kvs0) :: es' => by
    intro hwf l hl
    obtain ⟨⟨hk0, hkvs0⟩, hes'⟩ :
        (wfKey k0 = true ∧ wfFields kvs0 = true) ∧ wfItems es' = true := by
      simpa [wfItems, Bool.and_eq_true] using hwf
    simp only [emitItems, List.mem_cons, List.mem_append] at hl
    rcases hl with hl | hl | hl
    · subst hl
      simp only [List.mem_append, List.mem_cons]
      push_neg
      exact ⟨noNL_spaces i, by decide, by decide, wfKey_no_nl k0 hk0,
        by decide, by decide, noNL_scalar (.bool b0) (by simp [wfScalar])⟩
    · exact noNL_fields (i + 2) kvs0 hkvs0 l hl
    · exact noNL_items i es' hes' l hl
  | i, Value.map ((k0, Value.list l0) :: kvs0) :: es' => by
    intro hwf
    simp [wfItems] at hwf
  | i, Value.map ((k0, Value.map m0) :: kvs0) :: es' => by
    intro hwf
    simp [wfItems] at hwf
termination_by i es => sizeOf es
decreasing_by all_goals (simp_wf; try omega)

end

theorem splitLines_no_nl (l : List Char) (h : '\n' ∉ l) :
    splitLines l = [l] := by
  induction l with
  | nil => rfl
  | cons c l' ih =>
    have hc : c ≠ '\n' := fun hh => h (by simp [hh])
    have h' : '\n' ∉ l' := fun hh => h (List.mem_cons_of_mem _ hh)
    simp [splitLines, hc, ih h']

theorem splitLines_append_nl (l rest : List Char) (h : '\n' ∉ l) :
    splitLines (l ++ '\n' :: rest) = l :: splitLines rest := by
  induction l with
  | nil => simp [splitLines]
  | cons c l' ih =>
    have hc : c ≠ '\n' := fun hh => h (by simp [hh])
    have h' : '\n' ∉ l' := fun hh => h (List.mem_cons_of_mem _ hh)
    simp [splitLines, hc, ih h']

theorem splitLines_joinLines : ∀ (ls : List (List Char)), ls ≠ [] →
    (∀ l ∈ ls, '\n' ∉ l) → splitLines (joinLines ls) = ls
  | [], h, _ => absurd rfl h
  | [l], _, hn => by
    simp only [joinLines]
    exact splitLines_no_nl l (hn l (by simp))
  | l :: l2 :: ls', _, hn => by
    have hj : joinLines (l :: l2 :: ls') = l ++ '\n' :: joinLines (l2 :: ls') := rfl
    rw [hj, splitLines_append_nl _ _ (hn l (by simp))]
    rw [splitLines_joinLines (l2 :: ls') (by simp)
      (fun x hx => hn x (List.mem_cons_of_mem _ hx))]

/-- Emitting then re-parsing the whole document text recovers exactly the
`combined_config` association list, keys in declaration order. -/
theorem parseTop_serialize (d : Session)
    (h1 : wfMapVal d.source_config = true)
    (h2 : wfMapVal d.validator_config = true)
    (h3 : wfMapVal d.table_config = true) :
    parseTop (serializeSession d) = some (combinedConfig d) := by
  have hks : wfKey "source_config" = true ∧ wfKey "validator_config" = true ∧
      wfKey "table_config" = true := by decide
  have hwf : wfFields (combinedConfig d) = true := by
    simp [combinedConfig, wfFields, h1, h2, h3, hks.1, hks.2.1, hks.2.2]
  have hnl : ∀ l ∈ emitFields 0 (combinedConfig d), '\n' ∉ l :=
    noNL_fields 0 _ hwf
  have hne : emitFields 0 (combinedConfig d) ≠ [] := by
    obtain ⟨r, rem, he⟩ := emitKV_shape 0 "source_config" d.source_config
    simp [combinedConfig, emitFields, he]
  have hrt := rt_fields ((emitFields 0 (combinedConfig d)).length + 1) 0
    (combinedConfig d) [] hwf trivial (by simp)
  rw [List.append_nil] at hrt
  unfold parseTop serializeSession
  rw [splitLines_joinLines _ hne hnl]
  simp only [hrt]

/-- C5: for every document whose three sections are well-formed values (as
all documents this program produces are) and whose `column_mappings`
mirror `table_config['columns']` (as in every fully-defaulted document),
loading the serialized text back into any session yields exactly the
original document, and the parsed top-level keys come back in declaration
order (`source_config`, `validator_config`, `table_config`) — the dump
never sorts keys.  No placeholder resolution occurs on either side: both
the emitter and the parser treat `${...}` strings as opaque. -/
theorem serialize_roundtrip (d s0 : Session)
    (h1 : wfMapVal d.source_config = true)
    (h2 : wfMapVal d.validator_config = true)
    (h3 : wfMapVal d.table_config = true)
    (hcols : vlookup d.table_config "columns" = some d.column_mappings) :
    loadDocumentInto (serializeSession d) s0 = some d ∧
    parseTop (serializeSession d) = some
      [("source_config", d.source_config),
       ("validator_config", d.validator_config),
       ("table_config", d.table_config)] := by
  have hp := parseTop_serialize d h1 h2 h3
  refine ⟨?_, hp⟩
  obtain ⟨sc, vc, tc, cm⟩ := d
  unfold loadDocumentInto
  rw [hp]
  simp only [Option.map_some, combinedConfig] at *
  simp [load_config_into_session, alookup, hcols]

/-- C5 witness: the round trip at the fully-defaulted start-up document. -/
theorem serialize_roundtrip_witness :
    loadDocumentInto (serializeSession defaultSession) defaultSession =
      some defaultSession :=
  (serialize_roundtrip defaultSession defaultSession (by decide) (by decide)
    (by decide) (by decide)).1
